import Mathlib

/-!
# Sequencer / service dispatch engine

A shallow embedding of `Sequencer`, of the Service threads and of `main` (and
of the helpers they call) from
`assignments/course-2/assignment-2/sequencer_generic/seqgenex0.c`.

Conventions of the embedding.

* `double` values are rationals (`ℚ`). The functions at the top level compute
  with them exactly, which is how the drift formulas of the spec are stated;
  the namespace `Dbl` repeats these functions with the binary64 rounding of the
  compiled code after every operation. A conversion of a `double` to an integer
  type truncates toward zero (`truncQ`).
* Signed integers (`int`, `long`, `time_t`) are `Int`; C leaves their overflow
  undefined, so the development speaks about executions without it.
* Unsigned integers (`unsigned long long`) are `Nat` with an explicit
  `% 2 ^ 64` at every increment.
* The operating system is an explicit input: every clock reading and every
  return value of `clock_nanosleep` is supplied by a `TickEnv`.
* Calls to the logger (`syslog`, `log_sys`, `sprintf`, `perror`) have no effect
  on the state the development talks about and are left out.
* The header `seqgen.h` is not part of the sources; the macros it defines are
  the fields of `Config`, except `NANOSEC_PER_SEC`.
* The Sequencer on its own is a function of what the operating system returns.
  Where threads meet (the shutdown handshake), each thread is a step function
  on a shared state and an interleaving is a schedule, the list of the threads
  in the order in which they move.
-/

namespace SeqGen

/-! ## Constants and data -/

/-- Modelled from the spec: the macro `NANOSEC_PER_SEC` of the absent header
`seqgen.h`; the carry step of the spec subtracts `1_000_000_000`. -/
def NANOSEC_PER_SEC : Int := 1000000000

/-- The errno value `EINTR` of the Linux `<errno.h>`. -/
def EINTR : Int := 4

/-- The C `struct timespec`. -/
structure timespec where
  tv_sec : Int
  tv_nsec : Int
deriving DecidableEq, Repr

/-- The macros of `seqgen.h` whose values the sources do not show, and the two
compile-time flags of `seqgenex0.c` (both defined there, lines 61-62). -/
structure Config where
  RTSEQ_DELAY_NSEC : Int
  DT_SCALING_UNCERTAINTY_NANOSEC : ℚ
  CLOCK_BIAS_NANOSEC : ℚ
  ABS_DELAY : Bool
  DRIFT_CONTROL : Bool

/-- The three service semaphores `semS1`, `semS2`, `semS3`. -/
inductive Sem where
  | semS1
  | semS2
  | semS3
deriving DecidableEq, Repr

/-- What the Sequencer does to the outside world, in program order. -/
inductive Event where
  /-- A call `clock_nanosleep(CLOCK_REALTIME, flags, &delay_time, ..)`;
  `abs` tells whether `flags` is `TIMER_ABSTIME`. -/
  | nanosleep (abs : Bool) (request : timespec)
  /-- A call `sem_post(&s)`. -/
  | post (s : Sem)
deriving DecidableEq, Repr

/-- The variables of `Sequencer` that live across loop iterations, the three
abort flags it writes, and the trace of its calls. -/
structure SeqState where
  delay_time : timespec
  current_time : ℚ
  last_time : ℚ
  scale_dt : ℚ
  delay_cnt : Int
  seqCnt : Nat
  abortS1 : Bool
  abortS2 : Bool
  abortS3 : Bool
  trace : List Event

/-- What the operating system supplies during one iteration of the outer loop. -/
structure TickEnv where
  /-- The clock reading inside `getTimeMsec` (line 217). -/
  event_ts : timespec
  /-- The clock reading of line 237 (only read under `ABS_DELAY`). -/
  current_time_val : timespec
  /-- The values returned by the successive calls of `clock_nanosleep`. -/
  rcs : List Int
  /-- The value of the global `abortTest` read by the loop condition (line 318). -/
  abortTest : Bool

/-- The ways a run stops without reaching the end of `Sequencer`. -/
inductive Stop where
  /-- The call `exit(status)`, with the trace up to it. -/
  | exit (status : Int) (trace : List Event)
  /-- The environment holds no further return value: the wait never returns. -/
  | blocked (trace : List Event)
  /-- The environment holds no further tick. -/
  | starved (trace : List Event)
deriving DecidableEq, Repr

/-! ## Time arithmetic -/

/-- Conversion of a `double` to `long`: truncation toward zero. -/
def truncQ (q : ℚ) : Int := if 0 ≤ q then ⌊q⌋ else ⌈q⌉

/-- The function `getTimeMsec` (lines 426-441), given the clock reading. -/
def getTimeMsec (start_time : ℚ) (event_ts : timespec) : ℚ :=
  ((event_ts.tv_sec : ℚ) + (event_ts.tv_nsec : ℚ) / (NANOSEC_PER_SEC : ℚ)) - start_time

/-- The local `delta_t` of `Sequencer` (line 198). -/
def delta_t (cfg : Config) : ℚ := (cfg.RTSEQ_DELAY_NSEC : ℚ) / (NANOSEC_PER_SEC : ℚ)

/-- The local `std_delay_time` of `Sequencer` (line 191). -/
def std_delay_time (cfg : Config) : timespec := { tv_sec := 0, tv_nsec := cfg.RTSEQ_DELAY_NSEC }

/-- The value of `scale_dt` on line 224. -/
def scaleDt (cfg : Config) (current_time last_time : ℚ) : ℚ :=
  (current_time - last_time) - delta_t cfg

/-- The `double` expression on the right of line 226. -/
def driftExpr (cfg : Config) (scale_dt : ℚ) : ℚ :=
  ((std_delay_time cfg).tv_nsec : ℚ)
    - (scale_dt * ((NANOSEC_PER_SEC : ℚ) + cfg.DT_SCALING_UNCERTAINTY_NANOSEC))
    - cfg.CLOCK_BIAS_NANOSEC

/-- The block `#ifdef DRIFT_CONTROL .. #else .. #endif` (lines 222-232). -/
def driftBlock (cfg : Config) (st : SeqState) : SeqState :=
  if cfg.DRIFT_CONTROL then
    let scale_dt := scaleDt cfg st.current_time st.last_time
    { st with
      scale_dt := scale_dt
      delay_time := { st.delay_time with tv_nsec := truncQ (driftExpr cfg scale_dt) } }
  else
    { st with delay_time := std_delay_time cfg, scale_dt := delta_t cfg }

/-- The assignments and the carry step of lines 238-245. -/
def absDeadline (current_time_val delay_time : timespec) : timespec :=
  let d : timespec :=
    { tv_sec := current_time_val.tv_sec
      tv_nsec := current_time_val.tv_nsec + delay_time.tv_nsec }
  if d.tv_nsec > NANOSEC_PER_SEC then
    { tv_sec := d.tv_sec + 1, tv_nsec := d.tv_nsec - NANOSEC_PER_SEC }
  else d

/-- The block `#ifdef ABS_DELAY .. #endif` (lines 235-247). -/
def absBlock (cfg : Config) (current_time_val : timespec) (st : SeqState) : SeqState :=
  if cfg.ABS_DELAY then
    { st with delay_time := absDeadline current_time_val st.delay_time }
  else st

/-! ## The delay loop -/

/-- The inner `do .. while (rc == EINTR)` (lines 250-271), run on the return
values the environment supplies. -/
def delayLoop (cfg : Config) : List Int → SeqState → Except Stop SeqState
  | [], st => .error (.blocked st.trace)
  | rc :: rest, st =>
    let st1 := { st with trace := st.trace ++ [Event.nanosleep cfg.ABS_DELAY st.delay_time] }
    if rc = EINTR then
      delayLoop cfg rest { st1 with delay_cnt := st1.delay_cnt + 1 }
    else if rc < 0 then
      .error (.exit (-1) st1.trace)
    else
      .ok st1

/-! ## Releases -/

/-- The three release tests of lines 278-312, as the list of semaphores posted
at sequence count `seqCnt`, in program order. -/
def releases (seqCnt : Nat) : List Sem :=
  (if seqCnt % 2 = 0 then [Sem.semS1] else [])
    ++ (if seqCnt % 5 = 0 then [Sem.semS2] else [])
    ++ (if seqCnt % 15 = 0 then [Sem.semS3] else [])

/-- The release step and the bookkeeping of lines 275-316. -/
def releaseStep (st : SeqState) : SeqState :=
  { st with
    trace := st.trace ++ (releases st.seqCnt).map Event.post
    seqCnt := (st.seqCnt + 1) % 2 ^ 64
    last_time := st.current_time }

/-! ## The Sequencer -/

/-- The first part of the loop body (lines 216-247): sample the clock, reset
`delay_cnt`, compute the delay and, under `ABS_DELAY`, the deadline. -/
def prepare (cfg : Config) (start_time : ℚ) (e : TickEnv) (st : SeqState) : SeqState :=
  absBlock cfg e.current_time_val
    (driftBlock cfg { st with current_time := getTimeMsec start_time e.event_ts, delay_cnt := 0 })

/-- One iteration of the body of the outer `do .. while` (lines 216-316). -/
def tickBody (cfg : Config) (start_time : ℚ) (e : TickEnv) (st : SeqState) :
    Except Stop SeqState :=
  match delayLoop cfg e.rcs (prepare cfg start_time e st) with
  | .ok st4 => .ok (releaseStep st4)
  | .error s => .error s

/-- The outer `do .. while (!abortTest && (seqCnt < sequencePeriods))`
(lines 215-318), one `TickEnv` per iteration. The field `sequencePeriods` of
`threadParams_t` is declared in `seqgen.h`; it is the natural number the
unsigned counter is compared with. -/
def seqLoop (cfg : Config) (start_time : ℚ) (sequencePeriods : Nat) :
    List TickEnv → SeqState → Except Stop SeqState
  | [], st => .error (.starved st.trace)
  | e :: es, st =>
    match tickBody cfg start_time e st with
    | .ok st1 =>
      if !e.abortTest && decide (st1.seqCnt < sequencePeriods) then
        seqLoop cfg start_time sequencePeriods es st1
      else .ok st1
    | .error s => .error s

/-- The state of `Sequencer` when it reaches the outer loop (lines 189-210).
The C code leaves `scale_dt` uninitialised; every tick writes it before any
read, and it is `0` here. The abort flags are the globals of line 66. -/
def seqInit (cfg : Config) (start_time : ℚ) (init_ts : timespec) : SeqState :=
  let current_time := getTimeMsec start_time init_ts
  { delay_time := { tv_sec := 0, tv_nsec := cfg.RTSEQ_DELAY_NSEC }
    current_time := current_time
    last_time := current_time - delta_t cfg
    scale_dt := 0
    delay_cnt := 0
    seqCnt := 0
    abortS1 := false
    abortS2 := false
    abortS3 := false
    trace := [] }

/-- The shutdown sequence of lines 320-326. -/
def shutdown (st : SeqState) : SeqState :=
  { st with
    trace := st.trace ++ [Event.post Sem.semS1, Event.post Sem.semS2, Event.post Sem.semS3]
    abortS1 := true
    abortS2 := true
    abortS3 := true }

/-- The outer loop of `Sequencer` run from its initial state: the part of a run
that posts the regular releases. -/
def sequencerLoop (cfg : Config) (start_time : ℚ) (sequencePeriods : Nat)
    (init_ts : timespec) (env : List TickEnv) : Except Stop SeqState :=
  seqLoop cfg start_time sequencePeriods env (seqInit cfg start_time init_ts)

/-- The function `Sequencer` (lines 187-330). -/
def Sequencer (cfg : Config) (start_time : ℚ) (sequencePeriods : Nat)
    (init_ts : timespec) (env : List TickEnv) : Except Stop SeqState :=
  match sequencerLoop cfg start_time sequencePeriods init_ts env with
  | .ok st => .ok (shutdown st)
  | .error s => .error s

/-- The number of `sem_post(&s)` calls in a trace. -/
def posts (s : Sem) (trace : List Event) : Nat := trace.count (Event.post s)

/-- The return values of a wait that is interrupted `k` times and then returns `rc`. -/
def interrupted (k : Nat) (rc : Int) : List Int := List.replicate k EINTR ++ [rc]

/-- A wait completes when, after some interruptions, it returns a value that is
neither `EINTR` nor negative. -/
def completes : List Int → Bool
  | [] => false
  | rc :: rest => if rc = EINTR then completes rest else decide (0 ≤ rc)

/-! ## Specification-level functions and sample inputs -/

/-- The number of posts to `s` made by the release tests at the `m` consecutive
sequence counts `c, c + 1, .., c + m - 1`. -/
def regular (s : Sem) : Nat → Nat → Nat
  | _, 0 => 0
  | c, m + 1 => (releases c).count s + regular s (c + 1) m

/-- The drift formula in the words of the spec (section 4.2), all quantities in
nanoseconds: `scale = elapsed - nominal_period` and
`delay = nominal_period - scale * (1 + uncertainty_factor) - fixed_bias`,
where `elapsed` is `now - last_observed_time`. -/
def specDelay (nominal_period uncertainty_factor fixed_bias elapsed : ℚ) : ℚ :=
  let scale := elapsed - nominal_period
  nominal_period - scale * (1 + uncertainty_factor) - fixed_bias

/-- A sample configuration: a 10 ms period, no uncertainty and no bias, both
flags set as in `seqgenex0.c`. -/
def sampleCfg : Config :=
  { RTSEQ_DELAY_NSEC := 10000000
    DT_SCALING_UNCERTAINTY_NANOSEC := 0
    CLOCK_BIAS_NANOSEC := 0
    ABS_DELAY := true
    DRIFT_CONTROL := true }

/-- A sample tick: the wait returns `0` at once and no abort is requested. -/
def quietTick : TickEnv :=
  { event_ts := { tv_sec := 0, tv_nsec := 0 }
    current_time_val := { tv_sec := 0, tv_nsec := 0 }
    rcs := [0]
    abortTest := false }

/-- The raw drift-corrected delay of a tick in nanoseconds, before its
conversion to `long`: the right-hand side of line 226 at the tick's clock reading. -/
def rawDelay (cfg : Config) (start_time : ℚ) (e : TickEnv) (st : SeqState) : ℚ :=
  driftExpr cfg (scaleDt cfg (getTimeMsec start_time e.event_ts) st.last_time)

/-- A sample tick that starts 30 ms after the epoch; its wait returns `0` at once. -/
def lateTick : TickEnv :=
  { event_ts := { tv_sec := 0, tv_nsec := 30000000 }
    current_time_val := { tv_sec := 0, tv_nsec := 30001000 }
    rcs := [0]
    abortTest := false }

/-- The sample configuration without drift control. -/
def noDriftCfg : Config := { sampleCfg with DRIFT_CONTROL := false }

/-- The errno value `EINVAL` of the Linux `<errno.h>`. -/
def EINVAL : Int := 22

/-- A sample tick whose wait fails at once with `EINVAL`. -/
def failedTick : TickEnv := { quietTick with rcs := [EINVAL] }

/-- A sample tick during which an abort is requested; its wait returns `0` at once. -/
def abortTick : TickEnv := { quietTick with abortTest := true }

/-! ## The Service threads and the shutdown handshake -/

/-- Where a Service thread stands in `Service_1`, `Service_2`, `Service_3`
(lines 332-421, the same code up to the index): about to test its abort flag in
`while (!abortS)`, past that test and in `sem_wait`, or past the loop. -/
inductive SvcPc where
  | test
  | waiting
  | exited
deriving DecidableEq, Repr

/-- The local state of a Service thread: its place in the loop and its release
counter (`S1Cnt`, `S2Cnt`, `S3Cnt`, an `unsigned long long`). -/
structure SvcState where
  pc : SvcPc
  SCnt : Nat
deriving DecidableEq, Repr

/-- One step of a Service thread, given the current value of its abort flag and
of its semaphore. At `test` it reads the flag: set, it leaves the loop; clear, it
enters `sem_wait`. In `sem_wait` it is blocked while the semaphore is `0`;
otherwise it takes one permit, increments its counter and goes back to the test.
The result is the new local state and the new value of the semaphore, or `none`
when the thread cannot move. -/
def serviceStep (abortS : Bool) (sem : Nat) (v : SvcState) : Option (SvcState × Nat) :=
  match v.pc with
  | .test => if abortS then some ({ v with pc := .exited }, sem)
             else some ({ v with pc := .waiting }, sem)
  | .waiting => if sem = 0 then none
                else some ({ pc := .test, SCnt := (v.SCnt + 1) % 2 ^ 64 }, sem - 1)
  | .exited => none

/-- The state shared by the Sequencer's shutdown sequence (lines 320-326) and
the three Service threads: the number of shutdown statements already executed,
the three semaphores, the three abort flags and the three Service threads. -/
structure Sys where
  seqPc : Nat
  semS1 : Nat
  semS2 : Nat
  semS3 : Nat
  abortS1 : Bool
  abortS2 : Bool
  abortS3 : Bool
  svc1 : SvcState
  svc2 : SvcState
  svc3 : SvcState
deriving DecidableEq, Repr

/-- The value of the semaphore of a service. -/
def Sys.sem (y : Sys) : Sem → Nat
  | .semS1 => y.semS1
  | .semS2 => y.semS2
  | .semS3 => y.semS3

/-- The abort flag of a service. -/
def Sys.abort (y : Sys) : Sem → Bool
  | .semS1 => y.abortS1
  | .semS2 => y.abortS2
  | .semS3 => y.abortS3

/-- The Service thread of a service. -/
def Sys.svc (y : Sys) : Sem → SvcState
  | .semS1 => y.svc1
  | .semS2 => y.svc2
  | .semS3 => y.svc3

/-- The state after a step of a Service thread. -/
def Sys.setSvc (y : Sys) (s : Sem) (v : SvcState) (n : Nat) : Sys :=
  match s with
  | .semS1 => { y with svc1 := v, semS1 := n }
  | .semS2 => { y with svc2 := v, semS2 := n }
  | .semS3 => { y with svc3 := v, semS3 := n }

/-- The threads of the shutdown handshake. -/
inductive Actor where
  | sequencer
  | service (s : Sem)
deriving DecidableEq, Repr

/-- The next statement of the shutdown sequence of `Sequencer` (lines 321-326):
three `sem_post`, then the three abort flags, then `pthread_exit`. -/
def shutdownStep (y : Sys) : Option Sys :=
  match y.seqPc with
  | 0 => some { y with seqPc := 1, semS1 := y.semS1 + 1 }
  | 1 => some { y with seqPc := 2, semS2 := y.semS2 + 1 }
  | 2 => some { y with seqPc := 3, semS3 := y.semS3 + 1 }
  | 3 => some { y with seqPc := 4, abortS1 := true }
  | 4 => some { y with seqPc := 5, abortS2 := true }
  | 5 => some { y with seqPc := 6, abortS3 := true }
  | _ => none

/-- One step of the thread `a`, or `none` when `a` cannot move. -/
def sysStep (a : Actor) (y : Sys) : Option Sys :=
  match a with
  | .sequencer => shutdownStep y
  | .service s =>
    match serviceStep (y.abort s) (y.sem s) (y.svc s) with
    | some (v, n) => some (y.setSvc s v n)
    | none => none

/-- An interleaving: the threads move in the order of the schedule; the result
is `none` when a scheduled thread cannot move. -/
def runSched : List Actor → Sys → Option Sys
  | [], y => some y
  | a :: rest, y =>
    match sysStep a y with
    | some y1 => runSched rest y1
    | none => none

/-- The number of steps a Service thread still takes once its flag is set and
a permit is there for it. -/
def remaining (v : SvcState) : Nat :=
  match v.pc with
  | .waiting => 2
  | .test => 1
  | .exited => 0

/-- The state at the start of the shutdown when every Service thread is in
`sem_wait` and has consumed every regular release. -/
def idleSys : Sys :=
  { seqPc := 0
    semS1 := 0
    semS2 := 0
    semS3 := 0
    abortS1 := false
    abortS2 := false
    abortS3 := false
    svc1 := { pc := .waiting, SCnt := 0 }
    svc2 := { pc := .waiting, SCnt := 0 }
    svc3 := { pc := .waiting, SCnt := 0 } }

/-- An interleaving in which Service_1 consumes the forced permit and tests its
flag again before the Sequencer has set it. -/
def racySched : List Actor :=
  [.sequencer, .service .semS1, .service .semS1,
   .sequencer, .sequencer, .sequencer, .sequencer, .sequencer,
   .service .semS2, .service .semS2, .service .semS3, .service .semS3]

/-- The invariant of the states after an uninterrupted shutdown sequence: the
Sequencer has exited, every abort flag is set, and a Service thread in
`sem_wait` has a permit. -/
def DrainInv (y : Sys) : Prop :=
  y.seqPc = 6 ∧ (∀ s, y.abort s = true) ∧ ∀ s, (y.svc s).pc = SvcPc.waiting → 0 < y.sem s

/-- The number of steps the three Service threads still take. -/
def totalRemaining (y : Sys) : Nat :=
  remaining y.svc1 + remaining y.svc2 + remaining y.svc3

/-- The trace of consecutive ticks from sequence count `t` on: for each tick, given
as the number `k` of interruptions of its wait and the `delay_time` passed to the
wait, the `k + 1` calls of the wait and then the releases of the tick in program
order. -/
def ticksTrace (abs : Bool) : Nat → List (Nat × timespec) → List Event
  | _, [] => []
  | t, (k, d) :: ws =>
    List.replicate (k + 1) (Event.nanosleep abs d) ++ (releases t).map Event.post
      ++ ticksTrace abs (t + 1) ws

/-- The sample configuration in relative-delay mode, without drift control. -/
def relativeCfg : Config := { sampleCfg with ABS_DELAY := false, DRIFT_CONTROL := false }

/-- A sample tick whose wait is interrupted once and then returns `0`. -/
def interruptedTick : TickEnv := { quietTick with rcs := [EINTR, 0] }

/-! ## The function `main` -/

/-- The scheduling policy `SCHED_FIFO` of the Linux `<sched.h>`. -/
def SCHED_FIFO : Int := 1

/-- The macro `NUM_THREADS` (line 63). -/
def NUM_THREADS : Nat := 3 + 1

/-- The errno value `EAGAIN` of the Linux `<errno.h>`. -/
def EAGAIN : Int := 11

/-- The start routines handed to `pthread_create`. -/
inductive Routine where
  | Sequencer
  | Service_1
  | Service_2
  | Service_3
deriving DecidableEq, Repr

/-- The calls of `main` that the development talks about, in program order. -/
inductive MainEvent where
  /-- A call `sem_init(&s, 0, 0)`. -/
  | sem_init (s : Sem)
  /-- A call `pthread_create(&threads[idx], &rt_sched_attr[idx], start, ..)`, with
  the priority held by `rt_sched_attr[idx]` and the value the call returns. -/
  | pthread_create (idx : Nat) (start : Routine) (sched_priority : Int) (rc : Int)
  /-- A call `pthread_join(threads[idx], NULL)`. -/
  | pthread_join (idx : Nat)
deriving DecidableEq, Repr

/-- What the operating system returns to `main`. -/
structure MainEnv where
  /-- The values returned by the three calls of `sem_init` (lines 103-105). -/
  sem_init_S1 : Int
  sem_init_S2 : Int
  sem_init_S3 : Int
  /-- The value of `sched_get_priority_max(SCHED_FIFO)` (line 109). -/
  rt_max_prio : Int
  /-- The value of `sched_getscheduler(getpid())` in `print_scheduler` (line 449). -/
  schedType : Int
  /-- The values returned by `pthread_create` for `threads[1]`, `threads[2]`,
  `threads[3]` and `threads[0]` (lines 147, 154, 161, 172). -/
  create_rc1 : Int
  create_rc2 : Int
  create_rc3 : Int
  create_rc0 : Int
deriving DecidableEq, Repr

/-- The part of the state of `main` the development talks about: the array
`rt_param` (its field `sched_priority`), the priority stored in each
`rt_sched_attr`, the calls made so far, and the argument of `exit` once `main`
has called it. -/
structure MainState where
  rt_param : List Int
  rt_sched_attr : List Int
  trace : List MainEvent
  exit : Option Int
deriving DecidableEq, Repr

/-- The statements `rt_param[i].sched_priority = p;
pthread_attr_setschedparam(&rt_sched_attr[i], &rt_param[i]);`. -/
def setPriority (i : Nat) (p : Int) (m : MainState) : MainState :=
  { m with rt_param := m.rt_param.set i p, rt_sched_attr := m.rt_sched_attr.set i p }

/-- The statement `rc = pthread_create(&threads[i], &rt_sched_attr[i], start, ..)`
and the test that follows it: `perror` when `rc < 0`, `printf` otherwise, with
no other effect in either case. -/
def createThread (i : Nat) (start : Routine) (rc : Int) (m : MainState) : MainState :=
  { m with trace := m.trace ++ [MainEvent.pthread_create i start (m.rt_sched_attr.getD i 0) rc] }

/-- The second half of `main` (lines 122-178): the loop that sets up the
attributes, the four thread creations and the join loop. -/
def mainThreads (env : MainEnv) (m : MainState) : MainState :=
  let m1 := (List.range NUM_THREADS).foldl
    (fun acc i => setPriority i (env.rt_max_prio - (i : Int)) acc) m
  let m2 := createThread 1 Routine.Service_1 env.create_rc1
    (setPriority 1 (env.rt_max_prio - 1) m1)
  let m3 := createThread 2 Routine.Service_2 env.create_rc2
    (setPriority 2 (env.rt_max_prio - 2) m2)
  let m4 := createThread 3 Routine.Service_3 env.create_rc3
    (setPriority 3 (env.rt_max_prio - 3) m3)
  let m5 := createThread 0 Routine.Sequencer env.create_rc0
    (setPriority 0 env.rt_max_prio m4)
  { m5 with trace := m5.trace ++ (List.range NUM_THREADS).map MainEvent.pthread_join }

/-- The state of `main` before its first call of `sem_init`: the global arrays
are zero-initialised. -/
def mainInit : MainState :=
  { rt_param := List.replicate NUM_THREADS 0
    rt_sched_attr := List.replicate NUM_THREADS 0
    trace := []
    exit := none }

/-- The function `main` (lines 78-185): the three calls of `sem_init`, each
followed by `exit(-1)` when it returns a non-zero value; `print_scheduler`,
which calls `exit(-1)` unless the policy is `SCHED_FIFO`; then the threads. -/
def main (env : MainEnv) : MainState :=
  let m1 := { mainInit with trace := [MainEvent.sem_init Sem.semS1] }
  if env.sem_init_S1 ≠ 0 then { m1 with exit := some (-1) } else
  let m2 := { m1 with trace := m1.trace ++ [MainEvent.sem_init Sem.semS2] }
  if env.sem_init_S2 ≠ 0 then { m2 with exit := some (-1) } else
  let m3 := { m2 with trace := m2.trace ++ [MainEvent.sem_init Sem.semS3] }
  if env.sem_init_S3 ≠ 0 then { m3 with exit := some (-1) } else
  if env.schedType ≠ SCHED_FIFO then { m3 with exit := some (-1) } else
  mainThreads env m3

/-- A sample environment of `main`: every call succeeds and the policy is
`SCHED_FIFO` with the Linux maximum priority 99. -/
def sampleMainEnv : MainEnv :=
  { sem_init_S1 := 0
    sem_init_S2 := 0
    sem_init_S3 := 0
    rt_max_prio := 99
    schedType := SCHED_FIFO
    create_rc1 := 0
    create_rc2 := 0
    create_rc3 := 0
    create_rc0 := 0 }

/-- A sample environment of `main` in which the second `sem_init` fails. -/
def semFailEnv : MainEnv := { sampleMainEnv with sem_init_S2 := -1 }

/-- A sample environment of `main` in which creating Service_1 fails with `EAGAIN`. -/
def createFailEnv : MainEnv := { sampleMainEnv with create_rc1 := EAGAIN }


/-! ## The clock demonstration: `delta_t`

The functions of `assignments/peer_review/RT-Clock/posix_clock.c`. A conversion
of a `long` to `int` keeps the value modulo `2 ^ 32` (`toInt32`). -/

namespace RTClock

/-- The macro `NSEC_PER_SEC` (line 15). -/
def NSEC_PER_SEC : Int := 1000000000

/-- The macro `NSEC_PER_MSEC` (line 16). -/
def NSEC_PER_MSEC : Int := 1000000

/-- The macro `ERROR` (line 18). -/
def ERROR : Int := -1

/-- The macro `OK` (line 19). -/
def OK : Int := 0

/-- The macro `TEST_SECONDS` (line 20). -/
def TEST_SECONDS : Int := 0

/-- The macro `TEST_NANOSECONDS` (line 21). -/
def TEST_NANOSECONDS : Int := NSEC_PER_MSEC * 10

/-- The macro `TEST_ITERATIONS` (line 170). -/
def TEST_ITERATIONS : Nat := 100

/-- The conversion of a `long` value to `int`: the value modulo `2 ^ 32`, in the
range of `int`. -/
def toInt32 (x : Int) : Int := (x + 2147483648) % 4294967296 - 2147483648

/-- The function `delta_t` (lines 101-156). The third argument is the value of
`*delta_t` before the call; the result is the value returned and the value of
`*delta_t` after the call. -/
def delta_t (stop start delta : timespec) : Int × timespec :=
  let dt_sec := toInt32 (stop.tv_sec - start.tv_sec)
  let dt_nsec := toInt32 (stop.tv_nsec - start.tv_nsec)
  if dt_sec = 0 then
    if dt_nsec ≥ 0 ∧ dt_nsec < NSEC_PER_SEC then
      (OK, { tv_sec := 0, tv_nsec := dt_nsec })
    else if dt_nsec > NSEC_PER_SEC then
      (OK, { tv_sec := 1, tv_nsec := dt_nsec - NSEC_PER_SEC })
    else
      (ERROR, delta)
  else if dt_sec > 0 then
    if dt_nsec ≥ 0 ∧ dt_nsec < NSEC_PER_SEC then
      (OK, { tv_sec := dt_sec, tv_nsec := dt_nsec })
    else if dt_nsec > NSEC_PER_SEC then
      (OK, { tv_sec := delta.tv_sec + 1, tv_nsec := dt_nsec - NSEC_PER_SEC })
    else
      (OK, { tv_sec := dt_sec - 1, tv_nsec := NSEC_PER_SEC + dt_nsec })
  else
    (OK, delta)

/-- A timespec is normalised when its `tv_nsec` is in `[0, NSEC_PER_SEC)`. -/
def normalised (t : timespec) : Prop := 0 ≤ t.tv_nsec ∧ t.tv_nsec < NSEC_PER_SEC

/-- The instant of a timespec in nanoseconds. -/
def nanos (t : timespec) : Int := t.tv_sec * NSEC_PER_SEC + t.tv_nsec

/-- What one call of `nanosleep` does: the value it returns and, when the call
writes it, the new value of `remaining_time`. -/
structure NanoOutcome where
  ret : Int
  remaining : Option timespec

/-- What the operating system supplies to `delay_test`: the value returned by
`clock_getres`, the outcome of the `k`-th call of `nanosleep` (counted from `0`
over the whole run), and the clock readings of lines 212 and 225 in iteration
`idx`. -/
structure DelayEnv where
  clock_getres : Int
  nano : Nat → NanoOutcome
  start_time : Nat → timespec
  stop_time : Nat → timespec

/-- The static variables of `posix_clock.c` that `delay_test` uses, and the
requests of the calls of `nanosleep` made so far. -/
structure DelayState where
  sleep_time : timespec
  sleep_requested : timespec
  remaining_time : timespec
  sleep_count : Nat
  rtclk_dt : timespec
  rtclk_start_time : timespec
  rtclk_stop_time : timespec
  delay_error : timespec
  calls : List timespec

/-- The `do .. while` of lines 215-223, with `max_sleep_calls = 3`: a call of
`nanosleep`; when it returns `0` the loop is left; otherwise `sleep_time` takes
the remaining time, `sleep_count` (an `unsigned int`) is incremented, and the call
is repeated while time remains and `sleep_count < max_sleep_calls`. -/
def sleepLoop (env : DelayEnv) (st : DelayState) : DelayState :=
  let o := env.nano st.calls.length
  let st1 : DelayState :=
    { st with
      calls := st.calls ++ [st.sleep_time]
      remaining_time := o.remaining.getD st.remaining_time }
  if o.ret = 0 then st1
  else
    let st2 : DelayState :=
      { st1 with
        sleep_time := st1.remaining_time
        sleep_count := (st1.sleep_count + 1) % 4294967296 }
    if (st2.remaining_time.tv_sec > 0 ∨ st2.remaining_time.tv_nsec > 0) ∧ st2.sleep_count < 3 then
      sleepLoop env st2
    else st2
termination_by (if st.sleep_count < 3 then 3 - st.sleep_count else 4)
decreasing_by
  simp_wf
  rename_i h
  have h3 := h.2
  simp only at h3
  split_ifs <;> omega

/-- One iteration of the `for` loop of `delay_test` (lines 203-230). -/
def iteration (env : DelayEnv) (st : DelayState) (idx : Nat) : DelayState :=
  let st1 : DelayState :=
    { st with
      sleep_time := { tv_sec := TEST_SECONDS, tv_nsec := TEST_NANOSECONDS }
      sleep_requested := { tv_sec := TEST_SECONDS, tv_nsec := TEST_NANOSECONDS }
      rtclk_start_time := env.start_time idx }
  let st2 := sleepLoop env st1
  let st3 : DelayState := { st2 with rtclk_stop_time := env.stop_time idx }
  let dt := (delta_t st3.rtclk_stop_time st3.rtclk_start_time st3.rtclk_dt).2
  let err := (delta_t dt st3.sleep_requested st3.delay_error).2
  { st3 with rtclk_dt := dt, delay_error := err }

/-- The `for` loop of `delay_test` (lines 201-231). -/
def delayTestLoop (env : DelayEnv) (st : DelayState) : DelayState :=
  (List.range TEST_ITERATIONS).foldl (iteration env) st

/-- The function `delay_test` (lines 181-234): `sleep_count` is reset once, then
`clock_getres` is checked (`exit(-1)` when it fails), then the loop runs. The
requests are counted from the start of the call. -/
def delay_test (env : DelayEnv) (st : DelayState) : Except Int DelayState :=
  let st0 : DelayState := { st with sleep_count := 0, calls := [] }
  if env.clock_getres = ERROR then .error (-1)
  else .ok (delayTestLoop env st0)

end RTClock

/-- What one run of the `do .. while` of `delay_test` does to the counters, from
the state `st` to the state `r`: at least one call; each call after the first
is paid for by an increment of `sleep_count` below `3`; and `sleep_count` grows
by no more than the number of calls. -/
def SleepSpec (st r : RTClock.DelayState) : Prop :=
  st.calls.length + 1 ≤ r.calls.length
    ∧ r.calls.length + min st.sleep_count 2 ≤ st.calls.length + 1 + min r.sleep_count 2
    ∧ r.sleep_count + st.calls.length ≤ st.sleep_count + r.calls.length

/-- The invariant of the `for` loop of `delay_test` after `i` iterations: at
least `i` calls of `nanosleep`, at most `i` plus the retries that `sleep_count`
has paid for, and `sleep_count` no larger than the number of calls. -/
def RetryInv (i : Nat) (st : RTClock.DelayState) : Prop :=
  i ≤ st.calls.length
    ∧ st.calls.length ≤ i + min st.sleep_count 2
    ∧ st.sleep_count ≤ st.calls.length

/-- A sample environment of `delay_test`: the first five calls of `nanosleep`
are interrupted with 1000 ns remaining, the others return `0`. -/
def RTClock.sampleEnv : RTClock.DelayEnv :=
  { clock_getres := 0
    nano := fun k => if k < 5 then { ret := -1, remaining := some ⟨0, 1000⟩ }
                     else { ret := 0, remaining := none }
    start_time := fun _ => ⟨0, 0⟩
    stop_time := fun _ => ⟨0, 10000000⟩ }

/-- The static variables of `posix_clock.c` at program start. -/
def RTClock.zeroState : RTClock.DelayState :=
  { sleep_time := ⟨0, 0⟩
    sleep_requested := ⟨0, 0⟩
    remaining_time := ⟨0, 0⟩
    sleep_count := 0
    rtclk_dt := ⟨0, 0⟩
    rtclk_start_time := ⟨0, 0⟩
    rtclk_stop_time := ⟨0, 0⟩
    delay_error := ⟨0, 0⟩
    calls := [] }

/-! ## The counter threads

`counterThread` of `assignments/assignment-2/incdecthread/pthread.c` (lines
30-47) and of `assignments/course-1/assignment-4/incdecthread/pthread.c` (lines
92-111): the same loop in both files. Here the `int` arithmetic is checked: a
value outside the range of `int` is undefined behaviour, the result `none`. -/

namespace IncDec

/-- The largest value of an `int`. -/
def INT_MAX : Int := 2147483647

/-- The smallest value of an `int`. -/
def INT_MIN : Int := -2147483648

/-- Whether a value is in the range of `int`. -/
def inRange (x : Int) : Prop := INT_MIN ≤ x ∧ x ≤ INT_MAX

instance inRangeDecidable (x : Int) : Decidable (inRange x) :=
  inferInstanceAs (Decidable (INT_MIN ≤ x ∧ x ≤ INT_MAX))

/-- The loop `for (..; i < bound; i++) sum = sum + i;` from the values `i` and
`sum` on: the final value of `sum`, or `none` when `sum + i` or `i + 1` leaves
the range of `int`. -/
def sumLoop (bound i sum : Int) : Option Int :=
  if i < bound then
    if inRange (sum + i) ∧ inRange (i + 1) then sumLoop bound (i + 1) (sum + i)
    else none
  else some sum
termination_by (bound - i).toNat
decreasing_by
  simp_wf
  omega

/-- The value of `sum` that `counterThread` logs for the index `threadIdx`:
`sum = 0`, then the loop from `i = 1` while `i < threadIdx + 1`. -/
def counterThread (threadIdx : Int) : Option Int :=
  if inRange (threadIdx + 1) then sumLoop (threadIdx + 1) 1 0 else none

end IncDec

/-! ## The thread indices of assignment 2

The function `main` of `assignments/assignment-2/incdecthread/pthread.c`. -/

namespace IncDec2

/-- The macro `NUM_THREADS` (line 13): the length of the array `threads`. -/
def NUM_THREADS : Nat := 128

/-- The thread calls of `main`, with the index into `threads`. -/
inductive Call where
  /-- The call `pthread_create(&threads[slot], .., counterThread, &threadParams[slot])`
  with `threadParams[slot].threadIdx = threadIdx`. -/
  | pthread_create (slot : Nat) (threadIdx : Int)
  /-- The call `pthread_join(threads[slot], NULL)`. -/
  | pthread_join (slot : Nat)
deriving DecidableEq, Repr

/-- The thread calls of `main` in program order: the loop
`for (i = 1; i <= NUM_THREADS; i++)` of lines 62-73, then the loop
`for (i = 0; i < NUM_THREADS; i++)` of lines 76-77. -/
def main : List Call :=
  (List.range' 1 NUM_THREADS).map (fun i => Call.pthread_create i (i : Int))
    ++ (List.range NUM_THREADS).map Call.pthread_join

/-- The indices into `threads` at which `main` creates a thread. -/
def createdSlots : List Nat :=
  main.filterMap fun c =>
    match c with
    | .pthread_create slot _ => some slot
    | .pthread_join _ => none

/-- The indices into `threads` that `main` passes to `pthread_join`. -/
def joinedSlots : List Nat :=
  main.filterMap fun c =>
    match c with
    | .pthread_create _ _ => none
    | .pthread_join slot => some slot

end IncDec2

/-! ## The worker priorities of course 1, assignment 4

The function `starterThread` of
`assignments/course-1/assignment-4/incdecthread/pthread.c`. -/

namespace IncDec4

/-- The macro `NUM_THREADS` (line 26). -/
def NUM_THREADS : Nat := 128

/-- The thread calls of `starterThread`. -/
inductive Call where
  /-- The call `pthread_create(&threads[i], &rt_sched_attr[i], counterThread, ..)`
  with the priority `rt_param[i].sched_priority` and `threadParams[i].threadIdx`. -/
  | pthread_create (i : Nat) (sched_priority : Int) (threadIdx : Int)
  /-- The call `pthread_join(threads[i], NULL)`. -/
  | pthread_join (i : Nat)
deriving DecidableEq, Repr

/-- The priority of line 154 for the worker `i`. -/
def workerPriority (rt_max_prio : Int) (i : Nat) : Int := rt_max_prio - (i : Int) - 1

/-- The thread calls of `starterThread` in program order (lines 137-164). -/
def starterThread (rt_max_prio : Int) : List Call :=
  (List.range NUM_THREADS).map
      (fun i => Call.pthread_create i (workerPriority rt_max_prio i) (i : Int))
    ++ (List.range NUM_THREADS).map Call.pthread_join

end IncDec4


/-! ## The `double` arithmetic of the compiled code

The functions of `seqgenex0.c` that compute with `double`, once more, with the
rounding of IEEE 754 binary64 after every operation (round to nearest, ties to
even, 53 significant bits, subnormal numbers below `2 ^ (-1022)`); a product and
the difference that uses it are rounded one after the other, not fused. A
`double` is the rational number it denotes. Infinities and NaN are left out: the operands
of the program are clock readings and nanosecond counts, far below `2 ^ 1024`. -/

namespace Dbl

/-- The integer nearest to `x`; a tie goes to the even neighbour. -/
def roundHalfEven (x : ℚ) : Int :=
  if 2 * Int.fract x < 1 then ⌊x⌋
  else if 1 < 2 * Int.fract x then ⌊x⌋ + 1
  else if ⌊x⌋ % 2 = 0 then ⌊x⌋ else ⌊x⌋ + 1

/-- The binary exponent of `x` in binary64: `e` with `2 ^ e ≤ |x| < 2 ^ (e + 1)`,
and `-1022`, the exponent of the subnormal numbers, when that is larger. -/
def expo (x : ℚ) : Int := max (Int.log 2 |x|) (-1022)

/-- The `double` nearest to `x`: `x` rounded to a multiple of `2 ^ (expo x - 52)`. -/
def roundDouble (x : ℚ) : ℚ :=
  (roundHalfEven (x / 2 ^ (expo x - 52)) : ℚ) * 2 ^ (expo x - 52)

/-- The conversion of an integer (`int`, `long`, `time_t`) to `double`. -/
def ofInt (n : Int) : ℚ := roundDouble (n : ℚ)

/-- The function `getTimeMsec` (lines 426-441), given the clock reading:
`tv_sec + tv_nsec / (double)NANOSEC_PER_SEC`, then `event_time - start_time`. -/
def getTimeMsec (start_time : ℚ) (event_ts : timespec) : ℚ :=
  roundDouble
    (roundDouble
        (ofInt event_ts.tv_sec
          + roundDouble (ofInt event_ts.tv_nsec / ofInt NANOSEC_PER_SEC))
      - start_time)

/-- The local `delta_t` of `Sequencer` (line 198). -/
def delta_t (cfg : Config) : ℚ :=
  roundDouble (ofInt cfg.RTSEQ_DELAY_NSEC / ofInt NANOSEC_PER_SEC)

/-- The value of `scale_dt` on line 224. -/
def scaleDt (cfg : Config) (current_time last_time : ℚ) : ℚ :=
  roundDouble (roundDouble (current_time - last_time) - delta_t cfg)

/-- The `double` expression on the right of line 226. The two macros of the
absent header enter as `double` constants. -/
def driftExpr (cfg : Config) (scale_dt : ℚ) : ℚ :=
  roundDouble
    (roundDouble
        (ofInt (std_delay_time cfg).tv_nsec
          - roundDouble
              (scale_dt
                * roundDouble ((NANOSEC_PER_SEC : ℚ)
                    + roundDouble cfg.DT_SCALING_UNCERTAINTY_NANOSEC)))
      - roundDouble cfg.CLOCK_BIAS_NANOSEC)

/-- The block `#ifdef DRIFT_CONTROL .. #else .. #endif` (lines 222-232). -/
def driftBlock (cfg : Config) (st : SeqState) : SeqState :=
  if cfg.DRIFT_CONTROL then
    let scale_dt := scaleDt cfg st.current_time st.last_time
    { st with
      scale_dt := scale_dt
      delay_time := { st.delay_time with tv_nsec := truncQ (driftExpr cfg scale_dt) } }
  else
    { st with delay_time := std_delay_time cfg, scale_dt := delta_t cfg }

/-- The first part of the loop body (lines 216-247). -/
def prepare (cfg : Config) (start_time : ℚ) (e : TickEnv) (st : SeqState) : SeqState :=
  absBlock cfg e.current_time_val
    (driftBlock cfg { st with current_time := getTimeMsec start_time e.event_ts, delay_cnt := 0 })

/-- One iteration of the body of the outer `do .. while` (lines 216-316). -/
def tickBody (cfg : Config) (start_time : ℚ) (e : TickEnv) (st : SeqState) :
    Except Stop SeqState :=
  match delayLoop cfg e.rcs (prepare cfg start_time e st) with
  | .ok st4 => .ok (releaseStep st4)
  | .error s => .error s

/-- The state of `Sequencer` when it reaches the outer loop (lines 189-210). -/
def seqInit (cfg : Config) (start_time : ℚ) (init_ts : timespec) : SeqState :=
  let current_time := getTimeMsec start_time init_ts
  { delay_time := { tv_sec := 0, tv_nsec := cfg.RTSEQ_DELAY_NSEC }
    current_time := current_time
    last_time := roundDouble (current_time - delta_t cfg)
    scale_dt := 0
    delay_cnt := 0
    seqCnt := 0
    abortS1 := false
    abortS2 := false
    abortS3 := false
    trace := [] }

/-- The value of the right-hand side of line 226 at the clock reading of a tick,
before its conversion to `long`. -/
def rawDelay (cfg : Config) (start_time : ℚ) (e : TickEnv) (st : SeqState) : ℚ :=
  driftExpr cfg (scaleDt cfg (getTimeMsec start_time e.event_ts) st.last_time)

end Dbl

/-! ## Helper lemmas: the delay loop -/

theorem delayLoop_interrupted (cfg : Config) (k : Nat) (rc : Int) (rest : List Int)
    (st : SeqState) (h1 : rc ≠ EINTR) (h2 : 0 ≤ rc) :
    delayLoop cfg (List.replicate k EINTR ++ rc :: rest) st
      = .ok { st with
          trace := st.trace ++ List.replicate (k + 1) (Event.nanosleep cfg.ABS_DELAY st.delay_time)
          delay_cnt := st.delay_cnt + k } := by
  induction k generalizing st with
  | zero =>
    have h3 : ¬ rc < 0 := not_lt.mpr h2
    simp [delayLoop, h1, h3]
  | succ k ih =>
    have e : List.replicate (k + 1) EINTR ++ rc :: rest
        = EINTR :: (List.replicate k EINTR ++ rc :: rest) := by
      simp [List.replicate_succ]
    rw [e, delayLoop]
    simp only [if_true]
    rw [ih]
    simp only [List.append_assoc, List.singleton_append, Except.ok.injEq, SeqState.mk.injEq,
      true_and, and_true, List.append_cancel_left_eq, Nat.cast_add, Nat.cast_one]
    refine ⟨by ring, ?_⟩
    simp [List.replicate_succ]

theorem completes_shape : ∀ (rcs : List Int), completes rcs = true →
    ∃ k rc rest, rcs = List.replicate k EINTR ++ rc :: rest ∧ rc ≠ EINTR ∧ 0 ≤ rc
  | [], h => by simp [completes] at h
  | rc :: rest, h => by
    by_cases hrc : rc = EINTR
    · simp only [completes, hrc, if_true] at h
      obtain ⟨k, rc1, rest1, e, a, b⟩ := completes_shape rest h
      exact ⟨k + 1, rc1, rest1, by simp [List.replicate_succ, hrc, e], a, b⟩
    · simp only [completes, hrc, if_false, decide_eq_true_eq] at h
      exact ⟨0, rc, rest, by simp, hrc, h⟩

/-! ## Helper lemmas: one tick -/

theorem posts_append (s : Sem) (t1 t2 : List Event) :
    posts s (t1 ++ t2) = posts s t1 + posts s t2 := by
  simp [posts, List.count_append]

theorem posts_nanosleep (s : Sem) (n : Nat) (a : Bool) (d : timespec) :
    posts s (List.replicate n (Event.nanosleep a d)) = 0 := by
  simp [posts, List.count_replicate]

theorem posts_map_post (s : Sem) (l : List Sem) :
    posts s (l.map Event.post) = l.count s := by
  unfold posts
  induction l with
  | nil => rfl
  | cons x xs ih =>
    by_cases hx : x = s
    · subst hx; simp [ih]
    · have hx2 : Event.post x ≠ Event.post s := by
        intro hc; exact hx (Event.post.inj hc)
      simp [List.count_cons, ih, hx, hx2]

theorem prepare_frame (cfg : Config) (start_time : ℚ) (e : TickEnv) (st : SeqState) :
    (prepare cfg start_time e st).seqCnt = st.seqCnt
      ∧ (prepare cfg start_time e st).trace = st.trace
      ∧ (prepare cfg start_time e st).delay_cnt = 0
      ∧ (prepare cfg start_time e st).current_time = getTimeMsec start_time e.event_ts
      ∧ (prepare cfg start_time e st).last_time = st.last_time
      ∧ (prepare cfg start_time e st).abortS1 = st.abortS1
      ∧ (prepare cfg start_time e st).abortS2 = st.abortS2
      ∧ (prepare cfg start_time e st).abortS3 = st.abortS3 := by
  unfold prepare absBlock driftBlock
  cases cfg.ABS_DELAY <;> cases cfg.DRIFT_CONTROL <;> simp

/-- The value the first part of the loop body leaves in `delay_time`. -/
theorem prepare_delay_time (cfg : Config) (start_time : ℚ) (e : TickEnv) (st : SeqState) :
    (prepare cfg start_time e st).delay_time
      = (if cfg.ABS_DELAY then absDeadline e.current_time_val else id)
          (if cfg.DRIFT_CONTROL then
            { st.delay_time with tv_nsec := truncQ (rawDelay cfg start_time e st) }
          else std_delay_time cfg) := by
  unfold prepare absBlock driftBlock rawDelay
  cases cfg.ABS_DELAY <;> cases cfg.DRIFT_CONTROL <;> simp

/-- A tick whose wait is interrupted `k` times and then returns a value that is
neither `EINTR` nor negative: every field of the resulting state. -/
theorem tickBody_fields (cfg : Config) (start_time : ℚ) (e : TickEnv) (st : SeqState)
    (k : Nat) (rc : Int) (rest : List Int)
    (hr : e.rcs = List.replicate k EINTR ++ rc :: rest) (h1 : rc ≠ EINTR) (h2 : 0 ≤ rc) :
    ∃ st1, tickBody cfg start_time e st = .ok st1
      ∧ st1.delay_time = (prepare cfg start_time e st).delay_time
      ∧ st1.current_time = getTimeMsec start_time e.event_ts
      ∧ st1.last_time = getTimeMsec start_time e.event_ts
      ∧ st1.scale_dt = (prepare cfg start_time e st).scale_dt
      ∧ st1.delay_cnt = k
      ∧ st1.seqCnt = (st.seqCnt + 1) % 2 ^ 64
      ∧ st1.abortS1 = st.abortS1 ∧ st1.abortS2 = st.abortS2 ∧ st1.abortS3 = st.abortS3
      ∧ st1.trace = st.trace
          ++ List.replicate (k + 1)
              (Event.nanosleep cfg.ABS_DELAY (prepare cfg start_time e st).delay_time)
          ++ (releases st.seqCnt).map Event.post := by
  obtain ⟨f1, f2, f3, f4, -, f6, f7, f8⟩ := prepare_frame cfg start_time e st
  unfold tickBody
  rw [hr, delayLoop_interrupted cfg k rc rest _ h1 h2]
  refine ⟨_, rfl, ?_, ?_, ?_, ?_, ?_, ?_, ?_, ?_, ?_, ?_⟩
  · simp [releaseStep]
  · simp [releaseStep, f4]
  · simp [releaseStep, f4]
  · simp [releaseStep]
  · simp [releaseStep, f3]
  · simp [releaseStep, f1]
  · simp [releaseStep, f6]
  · simp [releaseStep, f7]
  · simp [releaseStep, f8]
  · simp only [releaseStep, f1, f2]

/-- A tick whose wait completes: the result, and what it leaves in the state. -/
theorem tickBody_completes (cfg : Config) (start_time : ℚ) (e : TickEnv) (st : SeqState)
    (h : completes e.rcs = true) :
    ∃ st1, tickBody cfg start_time e st = .ok st1
      ∧ st1.seqCnt = (st.seqCnt + 1) % 2 ^ 64
      ∧ st1.abortS1 = st.abortS1 ∧ st1.abortS2 = st.abortS2 ∧ st1.abortS3 = st.abortS3
      ∧ ∃ k, st1.trace = st.trace
          ++ List.replicate (k + 1)
              (Event.nanosleep cfg.ABS_DELAY (prepare cfg start_time e st).delay_time)
          ++ (releases st.seqCnt).map Event.post := by
  obtain ⟨k, rc, rest, hr, h1, h2⟩ := completes_shape e.rcs h
  obtain ⟨st1, hrun, -, -, -, -, -, hc, a1, a2, a3, htr⟩ :=
    tickBody_fields cfg start_time e st k rc rest hr h1 h2
  exact ⟨st1, hrun, hc, a1, a2, a3, k, htr⟩

/-! ## Helper lemmas: the outer loop -/

theorem posts_tick (s : Sem) (tr : List Event) (k : Nat) (a : Bool) (d : timespec) (c : Nat) :
    posts s (tr ++ List.replicate (k + 1) (Event.nanosleep a d) ++ (releases c).map Event.post)
      = posts s tr + (releases c).count s := by
  rw [posts_append, posts_append, posts_nanosleep, posts_map_post, Nat.add_zero]

/-- A run of `m` ticks, none aborted and each with a completing wait, that ends
at the tick limit. -/
theorem seqLoop_run (cfg : Config) (start_time : ℚ) (N : Nat) (hN : N < 2 ^ 64) :
    ∀ (m : Nat) (env : List TickEnv) (st : SeqState),
      0 < m → st.seqCnt + m = N → m ≤ env.length →
      (∀ e ∈ env.take m, completes e.rcs = true ∧ e.abortTest = false) →
      ∃ st1, seqLoop cfg start_time N env st = .ok st1
        ∧ st1.seqCnt = N
        ∧ (∀ s, posts s st1.trace = posts s st.trace + regular s st.seqCnt m)
        ∧ st1.abortS1 = st.abortS1 ∧ st1.abortS2 = st.abortS2 ∧ st1.abortS3 = st.abortS3 := by
  intro m
  induction m with
  | zero => intro env st h; exact absurd h (lt_irrefl 0)
  | succ m ih =>
    intro env st _ hc hlen hgood
    match env, hlen, hgood with
    | [], hlen, _ => simp at hlen
    | e :: es, hlen, hgood =>
      have hlen1 : m ≤ es.length := by simpa using hlen
      have he : completes e.rcs = true ∧ e.abortTest = false :=
        hgood e (by simp [List.take_succ_cons])
      obtain ⟨st1, h1, hcnt, a1, a2, a3, k, htr⟩ :=
        tickBody_completes cfg start_time e st he.1
      have hcnt1 : st1.seqCnt = st.seqCnt + 1 := by
        rw [hcnt]; exact Nat.mod_eq_of_lt (by omega)
      have hp : ∀ s, posts s st1.trace = posts s st.trace + (releases st.seqCnt).count s := by
        intro s; rw [htr, posts_tick]
      rw [seqLoop, h1]
      simp only [he.2, Bool.not_false, Bool.true_and, decide_eq_true_eq]
      by_cases hm : m = 0
      · subst hm
        have hlt : ¬ st1.seqCnt < N := by omega
        rw [if_neg hlt]
        refine ⟨st1, rfl, by omega, ?_, a1, a2, a3⟩
        intro s; rw [hp s]; simp [regular]
      · have hlt : st1.seqCnt < N := by omega
        rw [if_pos hlt]
        obtain ⟨st2, h2, hc2, hp2, b1, b2, b3⟩ :=
          ih es st1 (Nat.pos_of_ne_zero hm) (by omega) hlen1
            (fun x hx => hgood x (by simp [List.take_succ_cons, hx]))
        refine ⟨st2, h2, hc2, ?_, b1.trans a1, b2.trans a2, b3.trans a3⟩
        intro s
        rw [hp2 s, hp s, hcnt1]
        simp [regular, Nat.add_assoc]

theorem regular_semS1 (c m : Nat) : regular Sem.semS1 c m + (c + 1) / 2 = (c + m + 1) / 2 := by
  induction m generalizing c with
  | zero => simp [regular]
  | succ m ih =>
    have h := ih (c + 1)
    have hc : (releases c).count Sem.semS1 = if c % 2 = 0 then 1 else 0 := by
      unfold releases; split_ifs <;> simp
    simp only [regular, hc]
    split_ifs <;> omega

theorem regular_semS2 (c m : Nat) : regular Sem.semS2 c m + (c + 4) / 5 = (c + m + 4) / 5 := by
  induction m generalizing c with
  | zero => simp [regular]
  | succ m ih =>
    have h := ih (c + 1)
    have hc : (releases c).count Sem.semS2 = if c % 5 = 0 then 1 else 0 := by
      unfold releases; split_ifs <;> simp
    simp only [regular, hc]
    split_ifs <;> omega

theorem regular_semS3 (c m : Nat) : regular Sem.semS3 c m + (c + 14) / 15 = (c + m + 14) / 15 := by
  induction m generalizing c with
  | zero => simp [regular]
  | succ m ih =>
    have h := ih (c + 1)
    have hc : (releases c).count Sem.semS3 = if c % 15 = 0 then 1 else 0 := by
      unfold releases; split_ifs <;> simp
    simp only [regular, hc]
    split_ifs <;> omega

/-- The ceiling of `N / d` over the rationals, for a positive divisor. -/
theorem ceil_div_nat (N d : Nat) (hd : 0 < d) : ⌈(N : ℚ) / (d : ℚ)⌉₊ = (N + d - 1) / d := by
  have hdq : (0 : ℚ) < (d : ℚ) := by exact_mod_cast hd
  have hdm := Nat.div_add_mod (N + d - 1) d
  have hml := Nat.mod_lt (N + d - 1) hd
  apply le_antisymm
  · rw [Nat.ceil_le, div_le_iff₀ hdq]
    have h : N ≤ (N + d - 1) / d * d := by
      rw [Nat.mul_comm]
      generalize d * ((N + d - 1) / d) = p at hdm
      omega
    exact_mod_cast h
  · rcases Nat.eq_zero_or_pos ((N + d - 1) / d) with hz | hpos
    · rw [hz]; exact Nat.zero_le _
    · obtain ⟨r, hr⟩ : ∃ r, (N + d - 1) / d = r + 1 := ⟨(N + d - 1) / d - 1, by omega⟩
      rw [hr] at hdm ⊢
      apply Nat.succ_le_of_lt
      rw [Nat.lt_ceil, lt_div_iff₀ hdq]
      have h : r * d < N := by
        rw [Nat.mul_add, Nat.mul_one, Nat.mul_comm] at hdm
        generalize r * d = p at hdm
        omega
      exact_mod_cast h

/-! ## Helper lemmas: a whole run -/

/-- A run to the tick limit `N`: the loop ends with `seqCnt = N` and the regular
releases are counted by the moduli `2`, `5`, `15` of the release tests. -/
theorem sequencerLoop_counts (cfg : Config) (start_time : ℚ) (N : Nat) (init_ts : timespec)
    (env : List TickEnv) (h1 : 1 ≤ N) (h64 : N < 2 ^ 64) (hlen : N ≤ env.length)
    (hgood : ∀ e ∈ env, completes e.rcs = true ∧ e.abortTest = false) :
    ∃ st, sequencerLoop cfg start_time N init_ts env = .ok st
      ∧ st.seqCnt = N
      ∧ posts Sem.semS1 st.trace = (N + 1) / 2
      ∧ posts Sem.semS2 st.trace = (N + 4) / 5
      ∧ posts Sem.semS3 st.trace = (N + 14) / 15 := by
  obtain ⟨st, hrun, hcnt, hp, -, -, -⟩ :=
    seqLoop_run cfg start_time N h64 N env (seqInit cfg start_time init_ts) h1
      (by simp [seqInit]) hlen (fun e he => hgood e (List.mem_of_mem_take he))
  refine ⟨st, hrun, hcnt, ?_, ?_, ?_⟩
  · have := regular_semS1 0 N
    rw [hp]; simp only [seqInit, posts, List.count_nil] at *; omega
  · have := regular_semS2 0 N
    rw [hp]; simp only [seqInit, posts, List.count_nil] at *; omega
  · have := regular_semS3 0 N
    rw [hp]; simp only [seqInit, posts, List.count_nil] at *; omega

/-! ## Helper lemmas: time arithmetic -/

/-- Away from the exact sum `NANOSEC_PER_SEC`, the carry step of lines 242-245
leaves `tv_nsec` in range. -/
theorem absDeadline_nsec_range (now delay : timespec)
    (hn : 0 ≤ now.tv_nsec ∧ now.tv_nsec < NANOSEC_PER_SEC)
    (hd : 0 ≤ delay.tv_nsec ∧ delay.tv_nsec < NANOSEC_PER_SEC)
    (hne : now.tv_nsec + delay.tv_nsec ≠ NANOSEC_PER_SEC) :
    0 ≤ (absDeadline now delay).tv_nsec ∧ (absDeadline now delay).tv_nsec < NANOSEC_PER_SEC := by
  unfold absDeadline
  simp only [NANOSEC_PER_SEC] at *
  split_ifs with h <;> simp only <;> omega

/-- The carry step keeps the instant: in nanoseconds, the result of lines
238-245 is the clock reading plus the delay, whether or not the carry fires. -/
theorem absDeadline_instant (now delay : timespec) :
    (absDeadline now delay).tv_sec * NANOSEC_PER_SEC + (absDeadline now delay).tv_nsec
      = now.tv_sec * NANOSEC_PER_SEC + now.tv_nsec + delay.tv_nsec := by
  simp only [absDeadline]
  split_ifs <;> simp only <;> ring

theorem NANOSEC_PER_SEC_ne_zero : ((NANOSEC_PER_SEC : Int) : ℚ) ≠ 0 := by
  norm_num [NANOSEC_PER_SEC]

/-- The `double` expression of line 226 is the drift formula of the spec, with
the elapsed time converted from seconds to nanoseconds. -/
theorem driftExpr_eq_specDelay (cfg : Config) (current_time last_time : ℚ) :
    driftExpr cfg (scaleDt cfg current_time last_time)
      = specDelay (cfg.RTSEQ_DELAY_NSEC : ℚ)
          (cfg.DT_SCALING_UNCERTAINTY_NANOSEC / (NANOSEC_PER_SEC : ℚ))
          cfg.CLOCK_BIAS_NANOSEC
          ((current_time - last_time) * (NANOSEC_PER_SEC : ℚ)) := by
  have h := NANOSEC_PER_SEC_ne_zero
  simp only [driftExpr, scaleDt, specDelay, delta_t, std_delay_time]
  field_simp

theorem truncQ_intCast (z : Int) : truncQ (z : ℚ) = z := by
  unfold truncQ
  split_ifs <;> simp

theorem truncQ_neg (q : ℚ) (h : q ≤ -1) : truncQ q ≤ -1 := by
  have hq : ¬ (0 : ℚ) ≤ q := by linarith
  simp only [truncQ, hq, if_false]
  rw [Int.ceil_le]
  exact_mod_cast h

theorem driftBlock_delay_nsec (cfg : Config) (start_time : ℚ) (e : TickEnv) (st : SeqState)
    (hd : cfg.DRIFT_CONTROL = true) :
    (driftBlock cfg { st with current_time := getTimeMsec start_time e.event_ts,
                              delay_cnt := 0 }).delay_time.tv_nsec
      = truncQ (rawDelay cfg start_time e st) := by
  simp [driftBlock, hd, rawDelay]

theorem lateTick_raw (st : SeqState) (h : st.last_time = 0) :
    rawDelay sampleCfg 0 lateTick st = ((-10000000 : Int) : ℚ) := by
  norm_num [rawDelay, driftExpr, scaleDt, getTimeMsec, lateTick, sampleCfg, delta_t,
    std_delay_time, NANOSEC_PER_SEC, h]

theorem quietTick_raw :
    rawDelay sampleCfg 0 quietTick (seqInit sampleCfg 0 ⟨0, 0⟩) = ((10000000 : Int) : ℚ) := by
  norm_num [rawDelay, driftExpr, scaleDt, getTimeMsec, quietTick, sampleCfg, delta_t,
    std_delay_time, NANOSEC_PER_SEC, seqInit]

/-! ## Helper lemmas: failing waits and the number of loop bodies -/

/-- A wait that, after `k` interruptions, returns a negative value ends the run
with `exit(-1)` before any release of the tick is posted. -/
theorem tickBody_negative (cfg : Config) (start_time : ℚ) (e : TickEnv) (st : SeqState)
    (k : Nat) (rc : Int) (rest : List Int)
    (hr : e.rcs = List.replicate k EINTR ++ rc :: rest) (hneg : rc < 0) :
    tickBody cfg start_time e st
      = .error (.exit (-1) (st.trace ++ List.replicate (k + 1)
          (Event.nanosleep cfg.ABS_DELAY (prepare cfg start_time e st).delay_time))) := by
  have hne : rc ≠ EINTR := by
    intro h; rw [h] at hneg; exact absurd hneg (by decide)
  have key : ∀ (k : Nat) (s : SeqState),
      delayLoop cfg (List.replicate k EINTR ++ rc :: rest) s
        = .error (.exit (-1) (s.trace ++ List.replicate (k + 1)
            (Event.nanosleep cfg.ABS_DELAY s.delay_time))) := by
    intro k
    induction k with
    | zero => intro s; simp [delayLoop, hne, hneg]
    | succ k ih =>
      intro s
      have e1 : List.replicate (k + 1) EINTR ++ rc :: rest
          = EINTR :: (List.replicate k EINTR ++ rc :: rest) := by
        simp [List.replicate_succ]
      rw [e1, delayLoop]
      simp only [if_true]
      rw [ih]
      simp [List.replicate_succ]
  obtain ⟨-, f2, -⟩ := prepare_frame cfg start_time e st
  unfold tickBody
  rw [hr, key, f2]

/-- With fewer ticks than the tick limit asks for, the loop wants another body. -/
theorem seqLoop_starved (cfg : Config) (start_time : ℚ) (N : Nat) (hN : N < 2 ^ 64) :
    ∀ (m : Nat) (env : List TickEnv) (st : SeqState),
      st.seqCnt + m = N → env.length < m →
      (∀ e ∈ env, completes e.rcs = true ∧ e.abortTest = false) →
      ∃ tr, seqLoop cfg start_time N env st = .error (.starved tr) := by
  intro m
  induction m with
  | zero => intro env st _ h; exact absurd h (Nat.not_lt_zero _)
  | succ m ih =>
    intro env st hc hlen hgood
    match env, hlen, hgood with
    | [], _, _ => exact ⟨st.trace, rfl⟩
    | e :: es, hlen, hgood =>
      have hlen1 : es.length < m := by simpa using hlen
      have he := hgood e (by simp)
      obtain ⟨st1, h1, hcnt, -⟩ := tickBody_completes cfg start_time e st he.1
      have hcnt1 : st1.seqCnt = st.seqCnt + 1 := by
        rw [hcnt]; exact Nat.mod_eq_of_lt (by omega)
      have hlt : st1.seqCnt < N := by omega
      rw [seqLoop, h1]
      simp only [he.2, Bool.not_false, Bool.true_and, decide_eq_true_eq, if_pos hlt]
      exact ih es st1 (by omega) hlen1 (fun x hx => hgood x (by simp [hx]))

/-- The loop reads the first `m` ticks of the environment and no more. -/
theorem seqLoop_take (cfg : Config) (start_time : ℚ) (N : Nat) (hN : N < 2 ^ 64) :
    ∀ (m : Nat) (env : List TickEnv) (st : SeqState),
      0 < m → st.seqCnt + m = N → m ≤ env.length →
      (∀ e ∈ env.take m, completes e.rcs = true ∧ e.abortTest = false) →
      seqLoop cfg start_time N env st = seqLoop cfg start_time N (env.take m) st := by
  intro m
  induction m with
  | zero => intro env st h; exact absurd h (lt_irrefl 0)
  | succ m ih =>
    intro env st _ hc hlen hgood
    match env, hlen, hgood with
    | [], hlen, _ => simp at hlen
    | e :: es, hlen, hgood =>
      have hlen1 : m ≤ es.length := by simpa using hlen
      have he : completes e.rcs = true ∧ e.abortTest = false :=
        hgood e (by simp [List.take_succ_cons])
      obtain ⟨st1, h1, hcnt, -⟩ := tickBody_completes cfg start_time e st he.1
      have hcnt1 : st1.seqCnt = st.seqCnt + 1 := by
        rw [hcnt]; exact Nat.mod_eq_of_lt (by omega)
      rw [List.take_succ_cons, seqLoop, seqLoop, h1]
      simp only [he.2, Bool.not_false, Bool.true_and, decide_eq_true_eq]
      by_cases hm : m = 0
      · have hlt : ¬ st1.seqCnt < N := by omega
        rw [if_neg hlt, if_neg hlt]
      · have hlt : st1.seqCnt < N := by omega
        rw [if_pos hlt, if_pos hlt]
        exact ih es st1 (Nat.pos_of_ne_zero hm) (by omega) hlen1
          (fun x hx => hgood x (by simp [List.take_succ_cons, hx]))

/-- With the tick limit `0` the body still runs once: the loop tests its
condition only after the body. -/
theorem seqLoop_zero (cfg : Config) (start_time : ℚ) (e : TickEnv) (es : List TickEnv)
    (st : SeqState) (h0 : st.seqCnt = 0) (hw : completes e.rcs = true) :
    ∃ st1, seqLoop cfg start_time 0 (e :: es) st = .ok st1 ∧ st1.seqCnt = 1
      ∧ tickBody cfg start_time e st = .ok st1 := by
  obtain ⟨st1, h1, hcnt, -⟩ := tickBody_completes cfg start_time e st hw
  refine ⟨st1, ?_, by rw [hcnt, h0]; rfl, h1⟩
  rw [seqLoop, h1]
  simp

/-- A tick during which `abortTest` is set is the last one of the loop. -/
theorem seqLoop_abort (cfg : Config) (start_time : ℚ) (N : Nat) (e : TickEnv)
    (es : List TickEnv) (st : SeqState) (ha : e.abortTest = true)
    (hw : completes e.rcs = true) :
    ∃ st1, seqLoop cfg start_time N (e :: es) st = .ok st1
      ∧ tickBody cfg start_time e st = .ok st1 := by
  obtain ⟨st1, h1, -⟩ := tickBody_completes cfg start_time e st hw
  refine ⟨st1, ?_, h1⟩
  rw [seqLoop, h1]
  simp [ha]

theorem posts_shutdown (s : Sem) (st : SeqState) :
    posts s (shutdown st).trace = posts s st.trace + 1 := by
  simp only [shutdown, posts_append]
  cases s <;> simp [posts]

/-! ## Helper lemmas: the shutdown handshake -/

theorem runSched_append (l1 l2 : List Actor) (y : Sys) :
    runSched (l1 ++ l2) y
      = match runSched l1 y with
        | some y1 => runSched l2 y1
        | none => none := by
  induction l1 generalizing y with
  | nil => rfl
  | cons a rest ih =>
    simp only [List.cons_append, runSched]
    cases sysStep a y with
    | none => rfl
    | some y1 => exact ih y1

/-- The six statements of the shutdown sequence, run without interruption. -/
theorem runSched_shutdown (y : Sys) (h0 : y.seqPc = 0) :
    runSched (List.replicate 6 Actor.sequencer) y
      = some { y with
          seqPc := 6
          semS1 := y.semS1 + 1
          semS2 := y.semS2 + 1
          semS3 := y.semS3 + 1
          abortS1 := true
          abortS2 := true
          abortS3 := true } := by
  simp [List.replicate, runSched, sysStep, shutdownStep, h0]

theorem setSvc_svc (y : Sys) (s t : Sem) (v : SvcState) (n : Nat) :
    (y.setSvc s v n).svc t = if t = s then v else y.svc t := by
  cases s <;> cases t <;> rfl

theorem setSvc_sem (y : Sys) (s t : Sem) (v : SvcState) (n : Nat) :
    (y.setSvc s v n).sem t = if t = s then n else y.sem t := by
  cases s <;> cases t <;> rfl

theorem setSvc_abort (y : Sys) (s t : Sem) (v : SvcState) (n : Nat) :
    (y.setSvc s v n).abort t = y.abort t := by
  cases s <;> cases t <;> rfl

theorem setSvc_seqPc (y : Sys) (s : Sem) (v : SvcState) (n : Nat) :
    (y.setSvc s v n).seqPc = y.seqPc := by
  cases s <;> rfl

theorem setSvc_totalRemaining (y : Sys) (s : Sem) (v : SvcState) (n : Nat) :
    totalRemaining (y.setSvc s v n) + remaining (y.svc s) = totalRemaining y + remaining v := by
  cases s <;> simp only [totalRemaining, Sys.setSvc, Sys.svc] <;> omega

/-- A step of a Service thread, spelled out: the thread cannot be past its
loop; at the test it leaves the loop exactly when the flag is set; in
`sem_wait` it needs a permit, takes it and counts one release. -/
theorem sysStep_service (y y1 : Sys) (s : Sem)
    (hstep : sysStep (Actor.service s) y = some y1) :
    ((y.svc s).pc = SvcPc.test
        ∧ y1 = y.setSvc s { y.svc s with pc := if y.abort s then SvcPc.exited else SvcPc.waiting }
            (y.sem s))
      ∨ ((y.svc s).pc = SvcPc.waiting ∧ 0 < y.sem s
        ∧ y1 = y.setSvc s { pc := SvcPc.test, SCnt := ((y.svc s).SCnt + 1) % 2 ^ 64 }
            (y.sem s - 1)) := by
  simp only [sysStep, serviceStep] at hstep
  cases hpc : (y.svc s).pc with
  | test =>
    left
    rw [hpc] at hstep
    refine ⟨rfl, ?_⟩
    cases hab : y.abort s <;> simp [hab] at hstep <;> simp [hstep.symm]
  | waiting =>
    right
    rw [hpc] at hstep
    by_cases hz : y.sem s = 0
    · simp [hz] at hstep
    · simp only [hz, if_false] at hstep
      exact ⟨rfl, Nat.pos_of_ne_zero hz, (Option.some.inj hstep).symm⟩
  | exited =>
    rw [hpc] at hstep
    simp at hstep

theorem drainInv_step (a : Actor) (y y1 : Sys) (hinv : DrainInv y)
    (hstep : sysStep a y = some y1) :
    DrainInv y1 ∧ totalRemaining y1 + 1 = totalRemaining y := by
  obtain ⟨hpc, hab, hw⟩ := hinv
  cases a with
  | sequencer =>
    simp [sysStep, shutdownStep, hpc] at hstep
  | service s =>
    rcases sysStep_service y y1 s hstep with ⟨hp, rfl⟩ | ⟨hp, _, rfl⟩
    · rw [hab s, if_pos rfl]
      refine ⟨⟨by rw [setSvc_seqPc, hpc], fun t => by rw [setSvc_abort, hab t], ?_⟩, ?_⟩
      · intro t ht
        rw [setSvc_svc] at ht
        rw [setSvc_sem]
        by_cases hts : t = s
        · rw [if_pos hts] at ht; exact absurd ht (by simp)
        · rw [if_neg hts] at ht ⊢; exact hw t ht
      · have h0 := setSvc_totalRemaining y s { y.svc s with pc := SvcPc.exited } (y.sem s)
        have h1 : remaining (y.svc s) = 1 := by simp [remaining, hp]
        have h2 : remaining { y.svc s with pc := SvcPc.exited } = 0 := rfl
        rw [h1, h2] at h0
        omega
    · refine ⟨⟨by rw [setSvc_seqPc, hpc], fun t => by rw [setSvc_abort, hab t], ?_⟩, ?_⟩
      · intro t ht
        rw [setSvc_svc] at ht
        rw [setSvc_sem]
        by_cases hts : t = s
        · rw [if_pos hts] at ht; exact absurd ht (by simp)
        · rw [if_neg hts] at ht ⊢; exact hw t ht
      · have h0 := setSvc_totalRemaining y s
          { pc := SvcPc.test, SCnt := ((y.svc s).SCnt + 1) % 2 ^ 64 } (y.sem s - 1)
        have h1 : remaining (y.svc s) = 2 := by simp [remaining, hp]
        have h2 : remaining { pc := SvcPc.test, SCnt := ((y.svc s).SCnt + 1) % 2 ^ 64 } = 1 :=
          rfl
        rw [h1, h2] at h0
        omega

/-- After an uninterrupted shutdown sequence every interleaving keeps the
invariant, and each of its steps uses up one of the remaining steps. -/
theorem drainInv_run (sched : List Actor) :
    ∀ (y y1 : Sys), DrainInv y → runSched sched y = some y1 →
      DrainInv y1 ∧ totalRemaining y1 + sched.length = totalRemaining y := by
  induction sched with
  | nil =>
    intro y y1 hinv hrun
    simp only [runSched, Option.some.injEq] at hrun
    subst hrun
    exact ⟨hinv, rfl⟩
  | cons a rest ih =>
    intro y y1 hinv hrun
    simp only [runSched] at hrun
    cases hs : sysStep a y with
    | none => rw [hs] at hrun; simp at hrun
    | some y2 =>
      rw [hs] at hrun
      obtain ⟨hinv2, ht2⟩ := drainInv_step a y y2 hinv hs
      obtain ⟨hinv1, ht1⟩ := ih y2 y1 hinv2 hrun
      refine ⟨hinv1, ?_⟩
      simp only [List.length_cons]
      omega

theorem remaining_le_two (v : SvcState) : remaining v ≤ 2 := by
  unfold remaining
  cases v.pc <;> simp

/-- A Service thread that has not left its loop can move, in every state that
keeps the invariant. -/
theorem drainInv_enabled (y : Sys) (hinv : DrainInv y) (s : Sem)
    (hne : (y.svc s).pc ≠ SvcPc.exited) :
    ∃ y1, sysStep (Actor.service s) y = some y1 := by
  obtain ⟨-, hab, hw⟩ := hinv
  simp only [sysStep, serviceStep, hab s]
  cases hpc : (y.svc s).pc with
  | test => simp
  | waiting =>
    have := hw s hpc
    have hz : y.sem s ≠ 0 := by omega
    simp [hz]
  | exited => exact absurd hpc hne

/-! ## Helper lemmas: the shape of the trace -/

theorem delayLoop_ok_completes (cfg : Config) :
    ∀ (rcs : List Int) (st st1 : SeqState), delayLoop cfg rcs st = .ok st1 →
      completes rcs = true
  | [], st, st1, h => by simp [delayLoop] at h
  | rc :: rest, st, st1, h => by
    by_cases hrc : rc = EINTR
    · simp only [delayLoop, hrc, if_true] at h
      simp only [completes, hrc, if_true]
      exact delayLoop_ok_completes cfg rest _ st1 h
    · by_cases hneg : rc < 0
      · simp [delayLoop, hrc, hneg] at h
      · simp only [completes, hrc, if_false, decide_eq_true_eq]
        exact not_lt.mp hneg

/-- A tick that returns has a completing wait. -/
theorem tickBody_ok_completes (cfg : Config) (start_time : ℚ) (e : TickEnv)
    (st st1 : SeqState) (h : tickBody cfg start_time e st = .ok st1) :
    completes e.rcs = true := by
  unfold tickBody at h
  cases hd : delayLoop cfg e.rcs (prepare cfg start_time e st) with
  | error s => rw [hd] at h; simp at h
  | ok st4 => exact delayLoop_ok_completes cfg e.rcs _ st4 hd

/-- Every run of the loop that returns leaves a trace made of whole ticks: the
calls of the wait of a tick, then its releases, then the next tick. -/
theorem seqLoop_trace (cfg : Config) (start_time : ℚ) (N : Nat) (hN : N < 2 ^ 64) :
    ∀ (env : List TickEnv) (st st1 : SeqState), st.seqCnt + 1 < 2 ^ 64 →
      seqLoop cfg start_time N env st = .ok st1 →
      ∃ ws, ws ≠ [] ∧ st1.seqCnt = st.seqCnt + ws.length
        ∧ st1.trace = st.trace ++ ticksTrace cfg.ABS_DELAY st.seqCnt ws
  | [], st, st1, _, h => by simp [seqLoop] at h
  | e :: es, st, st1, hc, h => by
    rw [seqLoop] at h
    cases ht : tickBody cfg start_time e st with
    | error s => rw [ht] at h; simp at h
    | ok st2 =>
      rw [ht] at h
      simp only at h
      obtain ⟨st3, h3, hcnt, -, -, -, k, htr⟩ :=
        tickBody_completes cfg start_time e st (tickBody_ok_completes cfg start_time e st st2 ht)
      have e23 : st3 = st2 := by rw [ht] at h3; exact (Except.ok.inj h3).symm
      subst e23
      have hcnt1 : st3.seqCnt = st.seqCnt + 1 := by
        rw [hcnt]; exact Nat.mod_eq_of_lt hc
      split at h
      · rename_i hcond
        simp only [Bool.and_eq_true, decide_eq_true_eq] at hcond
        obtain ⟨ws, -, hlen, htr2⟩ :=
          seqLoop_trace cfg start_time N hN es st3 st1 (by omega) h
        refine ⟨(k, (prepare cfg start_time e st).delay_time) :: ws, by simp, ?_, ?_⟩
        · simp only [List.length_cons]; omega
        · rw [htr2, htr, hcnt1]
          simp [ticksTrace, List.append_assoc]
      · have e13 : st3 = st1 := Except.ok.inj h
        subst e13
        refine ⟨[(k, (prepare cfg start_time e st).delay_time)], by simp, ?_, ?_⟩
        · simpa using hcnt1
        · rw [htr]; simp [ticksTrace]

/-- The releases of a tick are posted in the order `semS1`, `semS2`, `semS3`. -/
theorem releases_sublist (t : Nat) :
    (releases t).Sublist [Sem.semS1, Sem.semS2, Sem.semS3] := by
  unfold releases
  split_ifs <;> simp

/-! ## Helper lemmas: `main` -/

/-- Past the three `sem_init` and `print_scheduler`, `main` has the same calls
and the same priorities whatever `pthread_create` returns, and does not exit. -/
theorem main_started (env : MainEnv) (h1 : env.sem_init_S1 = 0) (h2 : env.sem_init_S2 = 0)
    (h3 : env.sem_init_S3 = 0) (hs : env.schedType = SCHED_FIFO) :
    main env =
      { rt_param := [env.rt_max_prio, env.rt_max_prio - 1, env.rt_max_prio - 2,
          env.rt_max_prio - 3]
        rt_sched_attr := [env.rt_max_prio, env.rt_max_prio - 1, env.rt_max_prio - 2,
          env.rt_max_prio - 3]
        trace := [MainEvent.sem_init Sem.semS1, MainEvent.sem_init Sem.semS2,
          MainEvent.sem_init Sem.semS3,
          MainEvent.pthread_create 1 Routine.Service_1 (env.rt_max_prio - 1) env.create_rc1,
          MainEvent.pthread_create 2 Routine.Service_2 (env.rt_max_prio - 2) env.create_rc2,
          MainEvent.pthread_create 3 Routine.Service_3 (env.rt_max_prio - 3) env.create_rc3,
          MainEvent.pthread_create 0 Routine.Sequencer env.rt_max_prio env.create_rc0,
          MainEvent.pthread_join 0, MainEvent.pthread_join 1, MainEvent.pthread_join 2,
          MainEvent.pthread_join 3]
        exit := none } := by
  have hr : List.range NUM_THREADS = [0, 1, 2, 3] := by decide
  have hn : List.replicate NUM_THREADS (0 : Int) = [0, 0, 0, 0] := by decide
  simp [main, mainThreads, h1, h2, h3, hs, hr, hn, mainInit, setPriority, createThread]


/-! ## Helper lemmas: `delta_t` -/

theorem toInt32_of_fits (x : Int) (h1 : -2147483648 ≤ x) (h2 : x ≤ 2147483647) :
    RTClock.toInt32 x = x := by
  unfold RTClock.toInt32
  omega

/-- For normalised arguments whose seconds differ by a value of type `int`,
`delta_t` returns `ERROR` exactly when the seconds are equal and the
nanoseconds of `stop` are below those of `start`. -/
theorem delta_t_error_iff (stop start delta : timespec) (hs : RTClock.normalised stop)
    (ht : RTClock.normalised start)
    (h1 : -2147483648 ≤ stop.tv_sec - start.tv_sec)
    (h2 : stop.tv_sec - start.tv_sec ≤ 2147483647) :
    (RTClock.delta_t stop start delta).1 = RTClock.ERROR
      ↔ stop.tv_sec = start.tv_sec ∧ stop.tv_nsec < start.tv_nsec := by
  unfold RTClock.normalised RTClock.NSEC_PER_SEC at hs ht
  have e1 := toInt32_of_fits (stop.tv_sec - start.tv_sec) h1 h2
  have e2 := toInt32_of_fits (stop.tv_nsec - start.tv_nsec) (by omega) (by omega)
  simp only [RTClock.delta_t, e1, e2, RTClock.NSEC_PER_SEC, RTClock.OK, RTClock.ERROR]
  clear e1 e2
  split_ifs <;> simp <;> omega

/-! ## Helper lemmas: the retry budget of `delay_test` -/

theorem sleepLoop_spec (env : RTClock.DelayEnv) (st : RTClock.DelayState) :
    st.sleep_count < 4294967295 → SleepSpec st (RTClock.sleepLoop env st) := by
  induction st using RTClock.sleepLoop.induct env with
  | case1 x o h =>
    intro _
    have h1 : (env.nano x.calls.length).ret = 0 := h
    rw [RTClock.sleepLoop]
    simp only [h1, if_true, SleepSpec, List.length_append, List.length_singleton]
    omega
  | case2 x o st1 h st2 hc ih =>
    intro hx
    have h1 : ¬ (env.nano x.calls.length).ret = 0 := h
    have e : RTClock.sleepLoop env x = RTClock.sleepLoop env st2 := by
      rw [RTClock.sleepLoop]
      simp only [h1, if_false]
      exact if_pos hc
    have h2 : st2.sleep_count = x.sleep_count + 1 :=
      Nat.mod_eq_of_lt (show x.sleep_count + 1 < 4294967296 by omega)
    have hl : st2.calls.length = x.calls.length + 1 := by
      show (x.calls ++ [x.sleep_time]).length = _
      simp
    have h3 : st2.sleep_count < 3 := hc.2
    rw [e]
    clear_value st2 st1 o
    have ih2 := ih (by omega)
    unfold SleepSpec at ih2 ⊢
    omega
  | case3 x o st1 h st2 hc =>
    intro hx
    have h1 : ¬ (env.nano x.calls.length).ret = 0 := h
    have e : RTClock.sleepLoop env x = st2 := by
      rw [RTClock.sleepLoop]
      simp only [h1, if_false]
      exact if_neg hc
    have h2 : st2.sleep_count = x.sleep_count + 1 :=
      Nat.mod_eq_of_lt (show x.sleep_count + 1 < 4294967296 by omega)
    have hl : st2.calls.length = x.calls.length + 1 := by
      show (x.calls ++ [x.sleep_time]).length = _
      simp
    rw [e]
    clear_value st2 st1 o
    unfold SleepSpec
    omega

/-- Once `sleep_count` has reached `3`, the `do .. while` makes one call of
`nanosleep` and no more, whatever the call returns. -/
theorem sleepLoop_no_retry (env : RTClock.DelayEnv) (st : RTClock.DelayState)
    (h3 : 3 ≤ st.sleep_count) (hx : st.sleep_count < 4294967295) :
    (RTClock.sleepLoop env st).calls = st.calls ++ [st.sleep_time] := by
  have hmod : (st.sleep_count + 1) % 4294967296 = st.sleep_count + 1 :=
    Nat.mod_eq_of_lt (by omega)
  rw [RTClock.sleepLoop]
  by_cases h : (env.nano st.calls.length).ret = 0
  · simp only [h, if_true]
  · have hc : ¬ st.sleep_count + 1 < 3 := by omega
    simp only [h, if_false, hmod, hc, and_false]

theorem iteration_inv (env : RTClock.DelayEnv) (st : RTClock.DelayState) (i idx : Nat)
    (hi : i < 1000) (hinv : RetryInv i st) :
    RetryInv (i + 1) (RTClock.iteration env st idx) := by
  obtain ⟨a, b, c⟩ := hinv
  have hs := sleepLoop_spec env
    { st with
      sleep_time := { tv_sec := RTClock.TEST_SECONDS, tv_nsec := RTClock.TEST_NANOSECONDS }
      sleep_requested := { tv_sec := RTClock.TEST_SECONDS, tv_nsec := RTClock.TEST_NANOSECONDS }
      rtclk_start_time := env.start_time idx } (by simp only; omega)
  simp only [SleepSpec] at hs
  simp only [RetryInv, RTClock.iteration]
  omega

theorem foldl_iteration_inv (env : RTClock.DelayEnv) (l : List Nat) :
    ∀ (st : RTClock.DelayState) (i : Nat), i + l.length ≤ 1000 → RetryInv i st →
      RetryInv (i + l.length) (l.foldl (RTClock.iteration env) st) := by
  induction l with
  | nil => intro st i _ h; exact h
  | cons idx rest ih =>
    intro st i hlen hinv
    simp only [List.length_cons] at hlen
    have h1 := iteration_inv env st i idx (by omega) hinv
    have h2 := ih (RTClock.iteration env st idx) (i + 1) (by omega) h1
    simp only [List.foldl_cons, List.length_cons]
    rw [show i + (rest.length + 1) = i + 1 + rest.length by omega]
    exact h2

/-- The `for` loop of `delay_test`, started with `sleep_count = 0` and counting
the calls from there, makes at least `100` and at most `102` calls of
`nanosleep`. -/
theorem delayTestLoop_calls (env : RTClock.DelayEnv) (st : RTClock.DelayState) :
    RetryInv 100 (RTClock.delayTestLoop env { st with sleep_count := 0, calls := [] }) := by
  have h := foldl_iteration_inv env (List.range RTClock.TEST_ITERATIONS)
    { st with sleep_count := 0, calls := [] } 0
    (by simp [RTClock.TEST_ITERATIONS]) (by simp [RetryInv])
  simpa [RTClock.TEST_ITERATIONS, RTClock.delayTestLoop] using h

/-! ## Helper lemmas: the counter threads -/

theorem half_of_double (s p : Int) (h : 2 * s = p) : s = p / 2 := by
  omega

/-- Whenever the loop of `counterThread` ends without leaving the range of
`int`, the sum it leaves is `n * (n + 1) / 2`. -/
theorem sumLoop_value (n : Int) :
    ∀ (k : Nat) (i sum v : Int), 1 ≤ i → i ≤ n + 1 → (n + 1 - i).toNat = k →
      2 * sum = (i - 1) * i → IncDec.sumLoop (n + 1) i sum = some v → v = n * (n + 1) / 2 := by
  intro k
  induction k with
  | zero =>
    intro i sum v h1 h2 hk hs hrun
    have hi : i = n + 1 := by omega
    subst hi
    rw [IncDec.sumLoop] at hrun
    simp only [lt_irrefl, if_false, Option.some.injEq] at hrun
    subst hrun
    apply half_of_double
    rw [hs]
    ring
  | succ k ih =>
    intro i sum v h1 h2 hk hs hrun
    have hlt : i < n + 1 := by omega
    rw [IncDec.sumLoop] at hrun
    simp only [hlt, if_true] at hrun
    split_ifs at hrun
    exact ih (i + 1) (sum + i) v (by omega) (by omega) (by omega) (by rw [mul_add, hs]; ring) hrun

/-- For `n` up to `65535` the loop of `counterThread` stays in the range of
`int` and ends. -/
theorem sumLoop_total (n : Int) (hn : n ≤ 65535) :
    ∀ (k : Nat) (i sum : Int), 1 ≤ i → i ≤ n + 1 → (n + 1 - i).toNat = k →
      2 * sum = (i - 1) * i → IncDec.sumLoop (n + 1) i sum = some (n * (n + 1) / 2) := by
  intro k
  induction k with
  | zero =>
    intro i sum h1 h2 hk hs
    have hi : i = n + 1 := by omega
    subst hi
    rw [IncDec.sumLoop]
    simp only [lt_irrefl, if_false, Option.some.injEq]
    apply half_of_double
    rw [hs]
    ring
  | succ k ih =>
    intro i sum h1 h2 hk hs
    have hlt : i < n + 1 := by omega
    have hin : i ≤ 65535 := by omega
    have hsum : 2 * (sum + i) = i * (i + 1) := by rw [mul_add, hs]; ring
    have hb1 : i * (i + 1) ≤ 65535 * 65536 := by nlinarith
    have hb0 : 0 ≤ i * (i + 1) := by nlinarith
    have hr : IncDec.inRange (sum + i) ∧ IncDec.inRange (i + 1) := by
      unfold IncDec.inRange IncDec.INT_MIN IncDec.INT_MAX
      refine ⟨⟨?_, ?_⟩, ?_, ?_⟩ <;> omega
    rw [IncDec.sumLoop]
    simp only [hlt, if_true, hr, and_self]
    exact ih (i + 1) (sum + i) (by omega) (by omega) (by omega) (by rw [hsum]; ring)


/-! ## Helper lemmas: binary64 rounding -/

theorem roundHalfEven_of (y : ℚ) (m : Int) (h1 : (m : ℚ) - 1 / 2 < y) (h2 : y < (m : ℚ) + 1 / 2) :
    Dbl.roundHalfEven y = m := by
  unfold Dbl.roundHalfEven
  by_cases hc : (m : ℚ) ≤ y
  · have hf : ⌊y⌋ = m := by
      rw [Int.floor_eq_iff]
      constructor
      · exact hc
      · linarith
    have hfr : Int.fract y = y - m := by
      rw [Int.fract, hf]
    rw [hfr, hf, if_pos (by linarith)]
  · have hf : ⌊y⌋ = m - 1 := by
      rw [Int.floor_eq_iff]
      push_cast
      constructor <;> linarith
    have hfr : Int.fract y = y - (m - 1) := by
      rw [Int.fract, hf]
      push_cast
      ring
    rw [hfr, hf, if_neg (by linarith), if_pos (by linarith)]
    ring

theorem roundHalfEven_intCast (m : Int) : Dbl.roundHalfEven (m : ℚ) = m :=
  roundHalfEven_of _ m (by linarith) (by linarith)

/-- A tie: an argument half way between two integers goes to the even one. -/
theorem roundHalfEven_tie (y : ℚ) (m : Int) (h : y = (m : ℚ) + 1 / 2 ∨ y = (m : ℚ) - 1 / 2)
    (heven : m % 2 = 0) : Dbl.roundHalfEven y = m := by
  unfold Dbl.roundHalfEven
  rcases h with h | h
  · have hf : ⌊y⌋ = m := by
      rw [Int.floor_eq_iff]
      constructor <;> linarith
    have hfr : Int.fract y = 1 / 2 := by
      rw [Int.fract, hf, h]
      ring
    rw [hfr, hf, if_neg (by norm_num), if_neg (by norm_num), if_pos heven]
  · have hf : ⌊y⌋ = m - 1 := by
      rw [Int.floor_eq_iff]
      push_cast
      constructor <;> linarith
    have hfr : Int.fract y = 1 / 2 := by
      rw [Int.fract, hf, h]
      push_cast
      ring
    have hodd : ¬ (m - 1) % 2 = 0 := by omega
    rw [hfr, hf, if_neg (by norm_num), if_neg (by norm_num), if_neg hodd]
    ring

theorem roundHalfEven_error (y : ℚ) : |(Dbl.roundHalfEven y : ℚ) - y| ≤ 1 / 2 := by
  have h0 := Int.fract_nonneg y
  have h1 := Int.fract_lt_one y
  have hy : y = ⌊y⌋ + Int.fract y := (Int.floor_add_fract y).symm
  unfold Dbl.roundHalfEven
  rw [abs_le]
  split_ifs <;> push_cast <;> constructor <;> linarith

theorem expo_of (x : ℚ) (e : Int) (he : -1022 ≤ e) (hlo : (2 : ℚ) ^ e ≤ |x|)
    (hhi : |x| < (2 : ℚ) ^ (e + 1)) : Dbl.expo x = e := by
  have hpos : (0 : ℚ) < |x| := lt_of_lt_of_le (by positivity) hlo
  have h1 : e ≤ Int.log 2 |x| := by
    rw [← Int.zpow_le_iff_le_log (by norm_num) hpos]
    simpa using hlo
  have h2 : Int.log 2 |x| < e + 1 := by
    rw [← Int.lt_zpow_iff_log_lt (by norm_num) hpos]
    simpa using hhi
  unfold Dbl.expo
  omega

/-- The value of `roundDouble` at a positive argument, from its exponent `e` and
its 53-bit significand `m`. -/
theorem roundDouble_pos (x : ℚ) (e m : Int) (y : ℚ) (he : -1022 ≤ e) (hlo : (2 : ℚ) ^ e ≤ x)
    (hhi : x < (2 : ℚ) ^ (e + 1)) (h1 : (m : ℚ) - 1 / 2 < x / 2 ^ (e - 52))
    (h2 : x / 2 ^ (e - 52) < (m : ℚ) + 1 / 2) (hy : (m : ℚ) * 2 ^ (e - 52) = y) :
    Dbl.roundDouble x = y := by
  have hx : (0 : ℚ) < x := lt_of_lt_of_le (by positivity) hlo
  have ha : |x| = x := abs_of_pos hx
  unfold Dbl.roundDouble
  rw [expo_of x e he (by rw [ha]; exact hlo) (by rw [ha]; exact hhi), roundHalfEven_of _ m h1 h2,
    hy]

/-- The value of `roundDouble` at a negative argument. -/
theorem roundDouble_neg (x : ℚ) (e m : Int) (y : ℚ) (he : -1022 ≤ e) (hlo : (2 : ℚ) ^ e ≤ -x)
    (hhi : -x < (2 : ℚ) ^ (e + 1)) (h1 : (m : ℚ) - 1 / 2 < x / 2 ^ (e - 52))
    (h2 : x / 2 ^ (e - 52) < (m : ℚ) + 1 / 2) (hy : (m : ℚ) * 2 ^ (e - 52) = y) :
    Dbl.roundDouble x = y := by
  have hx : x < 0 := by
    have : (0 : ℚ) < -x := lt_of_lt_of_le (by positivity) hlo
    linarith
  have ha : |x| = -x := abs_of_neg hx
  unfold Dbl.roundDouble
  rw [expo_of x e he (by rw [ha]; exact hlo) (by rw [ha]; exact hhi), roundHalfEven_of _ m h1 h2,
    hy]

/-- The value of `roundDouble` at a positive argument that lies half way
between two neighbouring doubles. -/
theorem roundDouble_pos_tie (x : ℚ) (e m : Int) (y : ℚ) (he : -1022 ≤ e)
    (hlo : (2 : ℚ) ^ e ≤ x) (hhi : x < (2 : ℚ) ^ (e + 1))
    (h : x / 2 ^ (e - 52) = (m : ℚ) + 1 / 2 ∨ x / 2 ^ (e - 52) = (m : ℚ) - 1 / 2)
    (heven : m % 2 = 0) (hy : (m : ℚ) * 2 ^ (e - 52) = y) :
    Dbl.roundDouble x = y := by
  have hx : (0 : ℚ) < x := lt_of_lt_of_le (by positivity) hlo
  have ha : |x| = x := abs_of_pos hx
  unfold Dbl.roundDouble
  rw [expo_of x e he (by rw [ha]; exact hlo) (by rw [ha]; exact hhi),
    roundHalfEven_tie _ m h heven, hy]

theorem roundDouble_zero : Dbl.roundDouble 0 = 0 := by
  unfold Dbl.roundDouble
  rw [zero_div, ← Int.cast_zero, roundHalfEven_intCast]
  simp

/-- A number that is an integer multiple of its own unit in the last place is a
`double`: rounding leaves it as it is. -/
theorem roundDouble_exact (x : ℚ) (m : Int) (h : x / 2 ^ (Dbl.expo x - 52) = (m : ℚ)) :
    Dbl.roundDouble x = x := by
  unfold Dbl.roundDouble
  rw [h, roundHalfEven_intCast]
  have hne : (2 : ℚ) ^ (Dbl.expo x - 52) ≠ 0 := by positivity
  rw [← h]
  field_simp

/-- Every integer below `2 ^ 53` in absolute value is a `double`. -/
theorem roundDouble_intCast (n : Int) (h1 : -9007199254740992 < n) (h2 : n < 9007199254740992) :
    Dbl.roundDouble (n : ℚ) = n := by
  by_cases h0 : n = 0
  · rw [h0, Int.cast_zero, roundDouble_zero]
  have hpos : (0 : ℚ) < |(n : ℚ)| := abs_pos.mpr (by exact_mod_cast h0)
  have hone : (1 : ℚ) ≤ |(n : ℚ)| := by
    have : (1 : Int) ≤ |n| := Int.one_le_abs h0
    exact_mod_cast this
  have hlt : |(n : ℚ)| < (2 : ℚ) ^ (53 : Int) := by
    have : |n| < 9007199254740992 := abs_lt.mpr ⟨h1, h2⟩
    have h3 : |(n : ℚ)| < 9007199254740992 := by exact_mod_cast this
    norm_num
    exact h3
  have hL0 : 0 ≤ Int.log 2 |(n : ℚ)| := by
    rw [← Int.zpow_le_iff_le_log (by norm_num) hpos]
    simpa using hone
  have hL1 : Int.log 2 |(n : ℚ)| < 53 := by
    rw [← Int.lt_zpow_iff_log_lt (by norm_num) hpos]
    simpa using hlt
  have he : Dbl.expo (n : ℚ) = Int.log 2 |(n : ℚ)| := by
    unfold Dbl.expo
    omega
  obtain ⟨k, hk⟩ : ∃ k : Nat, Dbl.expo (n : ℚ) - 52 = -(k : Int) :=
    ⟨(52 - Int.log 2 |(n : ℚ)|).toNat, by rw [he]; omega⟩
  apply roundDouble_exact _ (n * 2 ^ k)
  rw [hk, zpow_neg, zpow_natCast]
  push_cast
  field_simp

/-- The rounding error of `roundDouble` is at most half a unit in the last
place: `2 ^ (-53)` times any bound of the argument that is itself at least
`2 ^ (-1022)`. -/
theorem roundDouble_error (x B : ℚ) (hx : |x| ≤ B) (hB : (2 : ℚ) ^ (-1022 : Int) ≤ B) :
    |Dbl.roundDouble x - x| ≤ B / 9007199254740992 := by
  by_cases h0 : x = 0
  · rw [h0, roundDouble_zero, sub_zero, abs_zero]
    have : (0 : ℚ) ≤ B := le_trans (abs_nonneg x) hx
    positivity
  have hpos : (0 : ℚ) < |x| := abs_pos.mpr h0
  have hE : (2 : ℚ) ^ Dbl.expo x ≤ B := by
    unfold Dbl.expo
    rcases le_total (Int.log 2 |x|) (-1022) with hc | hc
    · rw [max_eq_right hc]; exact hB
    · rw [max_eq_left hc]
      have := Int.zpow_log_le_self (b := 2) (by norm_num) hpos
      simp only [Nat.cast_ofNat] at this
      exact le_trans this hx
  have hu : (0 : ℚ) < 2 ^ (Dbl.expo x - 52) := by positivity
  have hr := roundHalfEven_error (x / 2 ^ (Dbl.expo x - 52))
  have hs : Dbl.roundDouble x - x
      = ((Dbl.roundHalfEven (x / 2 ^ (Dbl.expo x - 52)) : ℚ) - x / 2 ^ (Dbl.expo x - 52))
          * 2 ^ (Dbl.expo x - 52) := by
    unfold Dbl.roundDouble
    field_simp
  rw [hs, abs_mul, abs_of_pos hu]
  have hz : (2 : ℚ) ^ (Dbl.expo x - 52) = 2 ^ Dbl.expo x / 4503599627370496 := by
    rw [zpow_sub₀ (by norm_num : (2 : ℚ) ≠ 0)]
    norm_num
  rw [hz]
  have hp : (0 : ℚ) < 2 ^ Dbl.expo x := by positivity
  calc |(Dbl.roundHalfEven (x / (2 ^ Dbl.expo x / 4503599627370496)) : ℚ)
          - x / (2 ^ Dbl.expo x / 4503599627370496)| * (2 ^ Dbl.expo x / 4503599627370496)
      ≤ 1 / 2 * (2 ^ Dbl.expo x / 4503599627370496) := by
        rw [hz] at hr
        exact mul_le_mul_of_nonneg_right hr (by positivity)
    _ = 2 ^ Dbl.expo x / 9007199254740992 := by ring
    _ ≤ B / 9007199254740992 := by
        apply div_le_div_of_nonneg_right hE (by norm_num)

theorem ofInt_small (n : Int) (h1 : -9007199254740992 < n) (h2 : n < 9007199254740992) :
    Dbl.ofInt n = n := roundDouble_intCast n h1 h2

/-! ## Helper lemmas: one tick in binary64 -/

theorem dbl_prepare_frame (cfg : Config) (start_time : ℚ) (e : TickEnv) (st : SeqState) :
    (Dbl.prepare cfg start_time e st).seqCnt = st.seqCnt
      ∧ (Dbl.prepare cfg start_time e st).trace = st.trace
      ∧ (Dbl.prepare cfg start_time e st).delay_cnt = 0
      ∧ (Dbl.prepare cfg start_time e st).current_time = Dbl.getTimeMsec start_time e.event_ts
      ∧ (Dbl.prepare cfg start_time e st).last_time = st.last_time := by
  unfold Dbl.prepare absBlock Dbl.driftBlock
  cases cfg.ABS_DELAY <;> cases cfg.DRIFT_CONTROL <;> simp

/-- The value the first part of the loop body leaves in `delay_time`. -/
theorem dbl_prepare_delay_time (cfg : Config) (start_time : ℚ) (e : TickEnv) (st : SeqState) :
    (Dbl.prepare cfg start_time e st).delay_time
      = (if cfg.ABS_DELAY then absDeadline e.current_time_val else id)
          (if cfg.DRIFT_CONTROL then
            { st.delay_time with tv_nsec := truncQ (Dbl.rawDelay cfg start_time e st) }
          else std_delay_time cfg) := by
  unfold Dbl.prepare absBlock Dbl.driftBlock Dbl.rawDelay
  cases cfg.ABS_DELAY <;> cases cfg.DRIFT_CONTROL <;> simp

theorem dbl_driftBlock_delay_nsec (cfg : Config) (start_time : ℚ) (e : TickEnv) (st : SeqState)
    (hd : cfg.DRIFT_CONTROL = true) :
    (Dbl.driftBlock cfg { st with current_time := Dbl.getTimeMsec start_time e.event_ts,
                                  delay_cnt := 0 }).delay_time.tv_nsec
      = truncQ (Dbl.rawDelay cfg start_time e st) := by
  simp [Dbl.driftBlock, hd, Dbl.rawDelay]

/-- A tick whose wait is interrupted `k` times and then returns a value that is
neither `EINTR` nor negative. -/
theorem dbl_tickBody_fields (cfg : Config) (start_time : ℚ) (e : TickEnv) (st : SeqState)
    (k : Nat) (rc : Int) (rest : List Int)
    (hr : e.rcs = List.replicate k EINTR ++ rc :: rest) (h1 : rc ≠ EINTR) (h2 : 0 ≤ rc) :
    ∃ st1, Dbl.tickBody cfg start_time e st = .ok st1
      ∧ st1.last_time = Dbl.getTimeMsec start_time e.event_ts
      ∧ st1.seqCnt = (st.seqCnt + 1) % 2 ^ 64
      ∧ st1.trace = st.trace
          ++ List.replicate (k + 1)
              (Event.nanosleep cfg.ABS_DELAY (Dbl.prepare cfg start_time e st).delay_time)
          ++ (releases st.seqCnt).map Event.post := by
  obtain ⟨f1, f2, -, f4, -⟩ := dbl_prepare_frame cfg start_time e st
  unfold Dbl.tickBody
  rw [hr, delayLoop_interrupted cfg k rc rest _ h1 h2]
  refine ⟨_, rfl, ?_, ?_, ?_⟩
  · simp [releaseStep, f4]
  · simp [releaseStep, f1]
  · simp only [releaseStep, f1, f2]

theorem dbl_tickBody_completes (cfg : Config) (start_time : ℚ) (e : TickEnv) (st : SeqState)
    (h : completes e.rcs = true) :
    ∃ st1 k, Dbl.tickBody cfg start_time e st = .ok st1
      ∧ st1.trace = st.trace
          ++ List.replicate (k + 1)
              (Event.nanosleep cfg.ABS_DELAY (Dbl.prepare cfg start_time e st).delay_time)
          ++ (releases st.seqCnt).map Event.post := by
  obtain ⟨k, rc, rest, hr, h1, h2⟩ := completes_shape e.rcs h
  obtain ⟨st1, hrun, -, -, htr⟩ := dbl_tickBody_fields cfg start_time e st k rc rest hr h1 h2
  exact ⟨st1, k, hrun, htr⟩

/-! ## Helper lemmas: sample values in binary64 -/

/-- A whole-second clock reading, read from the start time `0`. -/
theorem dbl_getTimeMsec_whole (sec : Int) (h1 : -9007199254740992 < sec)
    (h2 : sec < 9007199254740992) : Dbl.getTimeMsec 0 ⟨sec, 0⟩ = sec := by
  unfold Dbl.getTimeMsec
  simp only [ofInt_small 0 (by norm_num) (by norm_num), ofInt_small sec h1 h2, Int.cast_zero,
    zero_div, roundDouble_zero, add_zero, sub_zero, roundDouble_intCast sec h1 h2]

theorem dbl_delta_t_sample :
    Dbl.delta_t sampleCfg = 5764607523034235 / 576460752303423488 := by
  unfold Dbl.delta_t
  rw [ofInt_small _ (by norm_num [sampleCfg]) (by norm_num [sampleCfg]),
    ofInt_small _ (by norm_num [NANOSEC_PER_SEC]) (by norm_num [NANOSEC_PER_SEC])]
  exact roundDouble_pos _ (-7) 5764607523034235 _ (by norm_num)
    (by norm_num [sampleCfg, NANOSEC_PER_SEC]) (by norm_num [sampleCfg, NANOSEC_PER_SEC])
    (by norm_num [sampleCfg, NANOSEC_PER_SEC]) (by norm_num [sampleCfg, NANOSEC_PER_SEC])
    (by norm_num)

theorem dbl_getTimeMsec_late :
    Dbl.getTimeMsec 0 lateTick.event_ts = 1080863910568919 / 36028797018963968 := by
  have h1 : Dbl.roundDouble ((30000000 : ℚ) / 1000000000)
      = 1080863910568919 / 36028797018963968 :=
    roundDouble_pos _ (-6) 8646911284551352 _ (by norm_num) (by norm_num) (by norm_num)
      (by norm_num) (by norm_num) (by norm_num)
  have h2 : Dbl.roundDouble (1080863910568919 / 36028797018963968)
      = 1080863910568919 / 36028797018963968 :=
    roundDouble_pos _ (-6) 8646911284551352 _ (by norm_num) (by norm_num) (by norm_num)
      (by norm_num) (by norm_num) (by norm_num)
  unfold Dbl.getTimeMsec
  simp only [lateTick, NANOSEC_PER_SEC, ofInt_small 0 (by norm_num) (by norm_num),
    ofInt_small 30000000 (by norm_num) (by norm_num),
    ofInt_small 1000000000 (by norm_num) (by norm_num), Int.cast_zero, Int.cast_ofNat,
    zero_add, sub_zero, h1, h2]

theorem dbl_scaleDt_late :
    Dbl.scaleDt sampleCfg (1080863910568919 / 36028797018963968) 0
      = 2882303761517117 / 144115188075855872 := by
  have h2 : Dbl.roundDouble (1080863910568919 / 36028797018963968)
      = 1080863910568919 / 36028797018963968 :=
    roundDouble_pos _ (-6) 8646911284551352 _ (by norm_num) (by norm_num) (by norm_num)
      (by norm_num) (by norm_num) (by norm_num)
  unfold Dbl.scaleDt
  rw [dbl_delta_t_sample, sub_zero, h2]
  exact roundDouble_pos_tie _ (-6) 5764607523034234 _ (by norm_num) (by norm_num) (by norm_num)
    (Or.inl (by norm_num)) (by norm_num) (by norm_num)

theorem dbl_driftExpr_zero : Dbl.driftExpr sampleCfg 0 = ((10000000 : Int) : ℚ) := by
  unfold Dbl.driftExpr
  simp only [sampleCfg, std_delay_time, NANOSEC_PER_SEC, roundDouble_zero, add_zero, zero_mul,
    sub_zero, ofInt_small 10000000 (by norm_num) (by norm_num),
    roundDouble_intCast 10000000 (by norm_num) (by norm_num)]

theorem dbl_driftExpr_late :
    Dbl.driftExpr sampleCfg (2882303761517117 / 144115188075855872)
      = -2684354559999999 / 268435456 := by
  have h0 : Dbl.roundDouble (((1000000000 : Int) : ℚ) + 0) = 1000000000 := by
    rw [add_zero, roundDouble_intCast 1000000000 (by norm_num) (by norm_num)]
    norm_num
  have h1 : Dbl.roundDouble ((2882303761517117 : ℚ) / 144115188075855872 * 1000000000)
      = 5368709119999999 / 268435456 :=
    roundDouble_pos _ 24 5368709119999999 _ (by norm_num) (by norm_num) (by norm_num)
      (by norm_num) (by norm_num) (by norm_num)
  have h2 : Dbl.roundDouble ((((10000000 : Int) : ℚ)) - 5368709119999999 / 268435456)
      = -2684354559999999 / 268435456 :=
    roundDouble_neg _ 23 (-5368709119999998) _ (by norm_num) (by norm_num) (by norm_num)
      (by norm_num) (by norm_num) (by norm_num)
  have h3 : Dbl.roundDouble (-2684354559999999 / 268435456)
      = -2684354559999999 / 268435456 :=
    roundDouble_neg _ 23 (-5368709119999998) _ (by norm_num) (by norm_num) (by norm_num)
      (by norm_num) (by norm_num) (by norm_num)
  unfold Dbl.driftExpr
  simp only [sampleCfg, std_delay_time, NANOSEC_PER_SEC, roundDouble_zero, sub_zero,
    ofInt_small 10000000 (by norm_num) (by norm_num), h0, h1, h2, h3]

theorem dbl_seqInit_sample :
    (Dbl.seqInit sampleCfg 0 ⟨0, 0⟩).last_time = -5764607523034235 / 576460752303423488 := by
  have h : Dbl.getTimeMsec 0 ⟨0, 0⟩ = ((0 : Int) : ℚ) :=
    dbl_getTimeMsec_whole 0 (by norm_num) (by norm_num)
  simp only [Dbl.seqInit, h, dbl_delta_t_sample, Int.cast_zero, zero_sub]
  exact roundDouble_neg _ (-7) (-5764607523034235) _ (by norm_num) (by norm_num) (by norm_num)
    (by norm_num) (by norm_num) (by norm_num)

theorem dbl_quietTick_raw :
    Dbl.rawDelay sampleCfg 0 quietTick (Dbl.seqInit sampleCfg 0 ⟨0, 0⟩)
      = ((10000000 : Int) : ℚ) := by
  have h : Dbl.getTimeMsec 0 quietTick.event_ts = ((0 : Int) : ℚ) :=
    dbl_getTimeMsec_whole 0 (by norm_num) (by norm_num)
  have hd : Dbl.roundDouble (5764607523034235 / 576460752303423488)
      = 5764607523034235 / 576460752303423488 :=
    roundDouble_pos _ (-7) 5764607523034235 _ (by norm_num) (by norm_num) (by norm_num)
      (by norm_num) (by norm_num) (by norm_num)
  have hs : Dbl.scaleDt sampleCfg 0 (-5764607523034235 / 576460752303423488) = 0 := by
    unfold Dbl.scaleDt
    rw [dbl_delta_t_sample]
    have e1 : (0 : ℚ) - -5764607523034235 / 576460752303423488
        = 5764607523034235 / 576460752303423488 := by norm_num
    rw [e1, hd, sub_self, roundDouble_zero]
  unfold Dbl.rawDelay
  rw [h, dbl_seqInit_sample, Int.cast_zero, hs, dbl_driftExpr_zero]

theorem dbl_lateTick_raw (st : SeqState) (h : st.last_time = 0) :
    Dbl.rawDelay sampleCfg 0 lateTick st = -2684354559999999 / 268435456 := by
  unfold Dbl.rawDelay
  rw [dbl_getTimeMsec_late, h, dbl_scaleDt_late, dbl_driftExpr_late]

theorem truncQ_late : truncQ (-2684354559999999 / 268435456) = -9999999 := by
  have hq : ¬ (0 : ℚ) ≤ -2684354559999999 / 268435456 := by norm_num
  simp only [truncQ, hq, if_false]
  rw [Int.ceil_eq_iff]
  constructor <;> norm_num

/-! ## Helper lemmas: overflow in the counter threads -/

/-- From a bound above `65536` on, the loop of `counterThread` reaches
`i = 65536` with `sum = 2147450880`, and `sum + i` is not an `int`. -/
theorem sumLoop_overflow (bound : Int) (hb : 65536 < bound) :
    ∀ (k : Nat) (i sum : Int), 1 ≤ i → i ≤ 65536 → (65536 - i).toNat = k →
      2 * sum = (i - 1) * i → IncDec.sumLoop bound i sum = none := by
  intro k
  induction k with
  | zero =>
    intro i sum h1 h2 hk hs
    have hi : i = 65536 := by omega
    subst hi
    have hsum : sum = 2147450880 := by omega
    subst hsum
    rw [IncDec.sumLoop]
    have hlt : (65536 : Int) < bound := hb
    have hr : ¬ (IncDec.inRange (2147450880 + 65536) ∧ IncDec.inRange (65536 + 1)) := by
      decide
    simp only [hlt, if_true, hr, if_false]
  | succ k ih =>
    intro i sum h1 h2 hk hs
    have hlt : i < bound := by omega
    have hin : i ≤ 65535 := by omega
    have hsum : 2 * (sum + i) = i * (i + 1) := by rw [mul_add, hs]; ring
    have hb1 : i * (i + 1) ≤ 65535 * 65536 := by nlinarith
    have hb0 : 0 ≤ i * (i + 1) := by nlinarith
    have hr : IncDec.inRange (sum + i) ∧ IncDec.inRange (i + 1) := by
      unfold IncDec.inRange IncDec.INT_MIN IncDec.INT_MAX
      refine ⟨⟨?_, ?_⟩, ?_, ?_⟩ <;> omega
    rw [IncDec.sumLoop]
    simp only [hlt, if_true, hr, and_self]
    exact ih (i + 1) (sum + i) (by omega) (by omega) (by omega) (by rw [hsum]; ring)

/-! ## Claims -/

/-- C1 (the code departs from its documented divisor): at sequence count 5 the
release tests post `semS2`, the semaphore of Service_2, and nothing else,
although 5 is not a multiple of the divisor 10 that the file header documents
for Service_2; the test in the code is `seqCnt % 5`. -/
theorem C1_service2_posted_at_tick_5 :
    releases 5 = [Sem.semS2] ∧ 5 % 10 ≠ 0
      ∧ (releaseStep { seqInit sampleCfg 0 ⟨0, 0⟩ with seqCnt := 5 }).trace
          = [Event.post Sem.semS2] := by
  refine ⟨by decide, by decide, ?_⟩
  simp [releaseStep, seqInit, releases]

/-- C2 (the code departs from the worked example): in every run of 150 ticks
without abort in which every wait completes, the loop posts 75 regular releases
to Service_1 and 10 to Service_3, but 30 (not 15) to Service_2. -/
theorem C2_run_of_150_ticks (cfg : Config) (start_time : ℚ) (init_ts : timespec)
    (env : List TickEnv) (hlen : 150 ≤ env.length)
    (hgood : ∀ e ∈ env, completes e.rcs = true ∧ e.abortTest = false) :
    ∃ st, sequencerLoop cfg start_time 150 init_ts env = .ok st
      ∧ posts Sem.semS1 st.trace = 75
      ∧ posts Sem.semS2 st.trace = 30
      ∧ posts Sem.semS3 st.trace = 10 := by
  obtain ⟨st, hrun, -, p1, p2, p3⟩ :=
    sequencerLoop_counts cfg start_time 150 init_ts env (by decide) (by norm_num) hlen hgood
  exact ⟨st, hrun, p1, p2, p3⟩

/-- Witness of C2: 150 quiet ticks under the sample configuration. -/
theorem C2_run_of_150_ticks_witness :
    ∃ st, sequencerLoop sampleCfg 0 150 ⟨0, 0⟩ (List.replicate 150 quietTick) = .ok st
      ∧ posts Sem.semS1 st.trace = 75
      ∧ posts Sem.semS2 st.trace = 30
      ∧ posts Sem.semS3 st.trace = 10 :=
  C2_run_of_150_ticks sampleCfg 0 ⟨0, 0⟩ (List.replicate 150 quietTick) (by simp)
    (by intro e he; rw [List.eq_of_mem_replicate he]; decide)

/-- C3: for every tick limit `N` with `1 ≤ N` (and below `2 ^ 64`, the range of
the counter), when no abort is requested and every wait completes, the loop of
the Sequencer ends and the number of regular releases it has posted to each
service is the ceiling of `N / d`, with `d` the modulus of that service's release
test: 2 for Service_1, 5 for Service_2, 15 for Service_3. The forced shutdown
posts come after the loop and are not part of its trace. -/
theorem C3_regular_releases_ceil (cfg : Config) (start_time : ℚ) (N : Nat)
    (init_ts : timespec) (env : List TickEnv) (h1 : 1 ≤ N) (h64 : N < 2 ^ 64)
    (hlen : N ≤ env.length)
    (hgood : ∀ e ∈ env, completes e.rcs = true ∧ e.abortTest = false) :
    ∃ st, sequencerLoop cfg start_time N init_ts env = .ok st
      ∧ Sequencer cfg start_time N init_ts env = .ok (shutdown st)
      ∧ posts Sem.semS1 st.trace = ⌈(N : ℚ) / (2 : ℕ)⌉₊
      ∧ posts Sem.semS2 st.trace = ⌈(N : ℚ) / (5 : ℕ)⌉₊
      ∧ posts Sem.semS3 st.trace = ⌈(N : ℚ) / (15 : ℕ)⌉₊ := by
  obtain ⟨st, hrun, -, p1, p2, p3⟩ :=
    sequencerLoop_counts cfg start_time N init_ts env h1 h64 hlen hgood
  refine ⟨st, hrun, by simp [Sequencer, hrun], ?_, ?_, ?_⟩
  · rw [p1, ceil_div_nat N 2 (by decide)]; omega
  · rw [p2, ceil_div_nat N 5 (by decide)]; omega
  · rw [p3, ceil_div_nat N 15 (by decide)]; omega

/-- Witness of C3: seven quiet ticks under the sample configuration. -/
theorem C3_regular_releases_ceil_witness :
    ∃ st, sequencerLoop sampleCfg 0 7 ⟨0, 0⟩ (List.replicate 7 quietTick) = .ok st
      ∧ Sequencer sampleCfg 0 7 ⟨0, 0⟩ (List.replicate 7 quietTick) = .ok (shutdown st)
      ∧ posts Sem.semS1 st.trace = ⌈((7 : ℕ) : ℚ) / (2 : ℕ)⌉₊
      ∧ posts Sem.semS2 st.trace = ⌈((7 : ℕ) : ℚ) / (5 : ℕ)⌉₊
      ∧ posts Sem.semS3 st.trace = ⌈((7 : ℕ) : ℚ) / (15 : ℕ)⌉₊ :=
  C3_regular_releases_ceil sampleCfg 0 7 ⟨0, 0⟩ (List.replicate 7 quietTick) (by decide)
    (by norm_num) (by simp)
    (by intro e he; rw [List.eq_of_mem_replicate he]; decide)

/-- C4: on a tick that starts with `seqCnt = 0` and whose wait completes, the
Sequencer posts exactly one permit to each of `semS1`, `semS2`, `semS3` (in
this order), after the calls of the wait; this holds in particular for the
first tick of a run, which starts from the initial state. -/
theorem C4_first_tick_releases_all (cfg : Config) (start_time : ℚ) (e : TickEnv)
    (st : SeqState) (h0 : st.seqCnt = 0) (hw : completes e.rcs = true) :
    ∃ st1 k, tickBody cfg start_time e st = .ok st1
      ∧ st1.trace = st.trace
          ++ List.replicate (k + 1)
              (Event.nanosleep cfg.ABS_DELAY (prepare cfg start_time e st).delay_time)
          ++ [Event.post Sem.semS1, Event.post Sem.semS2, Event.post Sem.semS3]
      ∧ posts Sem.semS1 st1.trace = posts Sem.semS1 st.trace + 1
      ∧ posts Sem.semS2 st1.trace = posts Sem.semS2 st.trace + 1
      ∧ posts Sem.semS3 st1.trace = posts Sem.semS3 st.trace + 1 := by
  obtain ⟨st1, hrun, -, -, -, -, k, htr⟩ := tickBody_completes cfg start_time e st hw
  have hr : releases st.seqCnt = [Sem.semS1, Sem.semS2, Sem.semS3] := by rw [h0]; decide
  refine ⟨st1, k, hrun, by rw [htr, hr]; rfl, ?_, ?_, ?_⟩
  all_goals (rw [htr, posts_tick, hr]; simp)

/-- Witness of C4: the first tick of a run under the sample configuration. -/
theorem C4_first_tick_releases_all_witness :
    ∃ st1 k, tickBody sampleCfg 0 quietTick (seqInit sampleCfg 0 ⟨0, 0⟩) = .ok st1
      ∧ st1.trace = (seqInit sampleCfg 0 ⟨0, 0⟩).trace
          ++ List.replicate (k + 1)
              (Event.nanosleep sampleCfg.ABS_DELAY
                (prepare sampleCfg 0 quietTick (seqInit sampleCfg 0 ⟨0, 0⟩)).delay_time)
          ++ [Event.post Sem.semS1, Event.post Sem.semS2, Event.post Sem.semS3]
      ∧ posts Sem.semS1 st1.trace = posts Sem.semS1 (seqInit sampleCfg 0 ⟨0, 0⟩).trace + 1
      ∧ posts Sem.semS2 st1.trace = posts Sem.semS2 (seqInit sampleCfg 0 ⟨0, 0⟩).trace + 1
      ∧ posts Sem.semS3 st1.trace = posts Sem.semS3 (seqInit sampleCfg 0 ⟨0, 0⟩).trace + 1 :=
  C4_first_tick_releases_all sampleCfg 0 quietTick (seqInit sampleCfg 0 ⟨0, 0⟩) rfl (by decide)

/-- C5 (the carry step misses the exact second): for the clock reading
`(5, 990000000)` and the delay `10000000`, both in range, the sum of the
nanoseconds is exactly `1000000000`; the test `>` of line 242 does not fire, and
the deadline is `(5, 1000000000)`, not `(6, 0)`: its `tv_nsec` is out of range. -/
theorem C5_carry_misses_exact_second :
    absDeadline ⟨5, 990000000⟩ ⟨0, 10000000⟩ = ⟨5, 1000000000⟩
      ∧ ¬ (absDeadline ⟨5, 990000000⟩ ⟨0, 10000000⟩).tv_nsec < NANOSEC_PER_SEC
      ∧ absDeadline ⟨5, 990000000⟩ ⟨0, 10000000⟩ ≠ ⟨6, 0⟩ := by
  decide

/-- C6: under `ABS_DELAY`, the deadline the loop body leaves in `delay_time` for
the wait is, as an instant in nanoseconds, the clock reading of line 237 plus
the delay computed by the drift block, whether or not the carry step fires; the
carry step has this property for every clock reading and every delay. -/
theorem C6_deadline_is_now_plus_delay (cfg : Config) (start_time : ℚ) (e : TickEnv)
    (st : SeqState) (ha : cfg.ABS_DELAY = true) :
    (prepare cfg start_time e st).delay_time.tv_sec * NANOSEC_PER_SEC
          + (prepare cfg start_time e st).delay_time.tv_nsec
        = e.current_time_val.tv_sec * NANOSEC_PER_SEC + e.current_time_val.tv_nsec
          + (driftBlock cfg { st with current_time := getTimeMsec start_time e.event_ts,
                                      delay_cnt := 0 }).delay_time.tv_nsec
      ∧ ∀ sec nsec delay_nsec : Int,
          (absDeadline ⟨sec, nsec⟩ ⟨0, delay_nsec⟩).tv_sec * 1000000000
              + (absDeadline ⟨sec, nsec⟩ ⟨0, delay_nsec⟩).tv_nsec
            = sec * 1000000000 + nsec + delay_nsec := by
  refine ⟨?_, fun sec nsec delay_nsec => absDeadline_instant ⟨sec, nsec⟩ ⟨0, delay_nsec⟩⟩
  simp only [prepare, absBlock, ha, if_true]
  exact absDeadline_instant _ _

/-- Witness of C6: the first tick of a run under the sample configuration. -/
theorem C6_deadline_is_now_plus_delay_witness :
    (prepare sampleCfg 0 quietTick (seqInit sampleCfg 0 ⟨0, 0⟩)).delay_time.tv_sec
            * NANOSEC_PER_SEC
          + (prepare sampleCfg 0 quietTick (seqInit sampleCfg 0 ⟨0, 0⟩)).delay_time.tv_nsec
        = quietTick.current_time_val.tv_sec * NANOSEC_PER_SEC
          + quietTick.current_time_val.tv_nsec
          + (driftBlock sampleCfg
              { seqInit sampleCfg 0 ⟨0, 0⟩ with
                current_time := getTimeMsec 0 quietTick.event_ts,
                delay_cnt := 0 }).delay_time.tv_nsec
      ∧ ∀ sec nsec delay_nsec : Int,
          (absDeadline ⟨sec, nsec⟩ ⟨0, delay_nsec⟩).tv_sec * 1000000000
              + (absDeadline ⟨sec, nsec⟩ ⟨0, delay_nsec⟩).tv_nsec
            = sec * 1000000000 + nsec + delay_nsec :=
  C6_deadline_is_now_plus_delay sampleCfg 0 quietTick (seqInit sampleCfg 0 ⟨0, 0⟩) rfl

/-- C7: with drift control, for every pair `(last_time, current_time)` the value
stored in `delay_time.tv_nsec` is the truncation toward zero of
`nominal_period - scale * (1 + uncertainty_factor) - fixed_bias`, where
`scale` is the elapsed time minus the nominal period, `uncertainty_factor` is
`DT_SCALING_UNCERTAINTY_NANOSEC / NANOSEC_PER_SEC` and `fixed_bias` is
`CLOCK_BIAS_NANOSEC`; the variable `scale_dt` holds that scale in seconds. -/
theorem C7_drift_delay_formula (cfg : Config) (st : SeqState)
    (hd : cfg.DRIFT_CONTROL = true) :
    (driftBlock cfg st).delay_time.tv_nsec
        = truncQ (specDelay (cfg.RTSEQ_DELAY_NSEC : ℚ)
            (cfg.DT_SCALING_UNCERTAINTY_NANOSEC / (NANOSEC_PER_SEC : ℚ))
            cfg.CLOCK_BIAS_NANOSEC
            ((st.current_time - st.last_time) * (NANOSEC_PER_SEC : ℚ)))
      ∧ (driftBlock cfg st).scale_dt
        = (st.current_time - st.last_time)
            - (cfg.RTSEQ_DELAY_NSEC : ℚ) / (NANOSEC_PER_SEC : ℚ) := by
  refine ⟨?_, ?_⟩
  · rw [← driftExpr_eq_specDelay]
    simp [driftBlock, hd]
  · simp [driftBlock, hd, scaleDt, delta_t]

/-- Witness of C7: the initial state of a run under the sample configuration. -/
theorem C7_drift_delay_formula_witness :
    (driftBlock sampleCfg (seqInit sampleCfg 0 ⟨0, 0⟩)).delay_time.tv_nsec
        = truncQ (specDelay (sampleCfg.RTSEQ_DELAY_NSEC : ℚ)
            (sampleCfg.DT_SCALING_UNCERTAINTY_NANOSEC / (NANOSEC_PER_SEC : ℚ))
            sampleCfg.CLOCK_BIAS_NANOSEC
            (((seqInit sampleCfg 0 ⟨0, 0⟩).current_time - (seqInit sampleCfg 0 ⟨0, 0⟩).last_time)
              * (NANOSEC_PER_SEC : ℚ)))
      ∧ (driftBlock sampleCfg (seqInit sampleCfg 0 ⟨0, 0⟩)).scale_dt
        = ((seqInit sampleCfg 0 ⟨0, 0⟩).current_time - (seqInit sampleCfg 0 ⟨0, 0⟩).last_time)
            - (sampleCfg.RTSEQ_DELAY_NSEC : ℚ) / (NANOSEC_PER_SEC : ℚ) :=
  C7_drift_delay_formula sampleCfg (seqInit sampleCfg 0 ⟨0, 0⟩) rfl

/-- C8, as stated, fails: in the run of two ticks whose second tick starts 30 ms
after the first (period 10 ms), computed in binary64 as the code does, the
value of line 226 in the second tick is negative, the delay the Sequencer stores
is `-9999999` and not `0`, and the deadline passed to the wait is
`(0, 20001001)`: the clock reading `(0, 30001000)` plus the negative delay. -/
theorem C8_negative_delay_not_clamped :
    ∃ st1 st2, Dbl.tickBody sampleCfg 0 quietTick (Dbl.seqInit sampleCfg 0 ⟨0, 0⟩) = .ok st1
      ∧ Dbl.tickBody sampleCfg 0 lateTick st1 = .ok st2
      ∧ Dbl.rawDelay sampleCfg 0 lateTick st1 < 0
      ∧ (Dbl.driftBlock sampleCfg
          { st1 with current_time := Dbl.getTimeMsec 0 lateTick.event_ts,
                     delay_cnt := 0 }).delay_time.tv_nsec = -9999999
      ∧ (Dbl.driftBlock sampleCfg
          { st1 with current_time := Dbl.getTimeMsec 0 lateTick.event_ts,
                     delay_cnt := 0 }).delay_time.tv_nsec ≠ 0
      ∧ st2.trace = [Event.nanosleep true ⟨0, 10000000⟩, Event.post Sem.semS1,
          Event.post Sem.semS2, Event.post Sem.semS3, Event.nanosleep true ⟨0, 20001001⟩] := by
  obtain ⟨st1, hrun1, hl1, hc1, htr1⟩ :=
    dbl_tickBody_fields sampleCfg 0 quietTick (Dbl.seqInit sampleCfg 0 ⟨0, 0⟩) 0 0 [] rfl
      (by decide) (by decide)
  obtain ⟨st2, hrun2, -, -, htr2⟩ :=
    dbl_tickBody_fields sampleCfg 0 lateTick st1 0 0 [] rfl (by decide) (by decide)
  have hl : st1.last_time = 0 := by
    rw [hl1, show quietTick.event_ts = ⟨0, 0⟩ from rfl,
      dbl_getTimeMsec_whole 0 (by norm_num) (by norm_num), Int.cast_zero]
  have hraw := dbl_lateTick_raw st1 hl
  have hused := dbl_driftBlock_delay_nsec sampleCfg 0 lateTick st1 rfl
  rw [hraw, truncQ_late] at hused
  have hd1 : (Dbl.prepare sampleCfg 0 quietTick (Dbl.seqInit sampleCfg 0 ⟨0, 0⟩)).delay_time
      = ⟨0, 10000000⟩ := by
    rw [dbl_prepare_delay_time, dbl_quietTick_raw, truncQ_intCast]
    decide
  have hd2 : (Dbl.prepare sampleCfg 0 lateTick st1).delay_time = ⟨0, 20001001⟩ := by
    rw [dbl_prepare_delay_time, hraw, truncQ_late]
    simp [sampleCfg, absDeadline, lateTick, NANOSEC_PER_SEC]
  have hs1 : st1.seqCnt = 1 := by rw [hc1]; rfl
  refine ⟨st1, st2, hrun1, hrun2, by rw [hraw]; norm_num, hused, by rw [hused]; decide, ?_⟩
  rw [htr2, htr1, hd1, hd2, hs1]
  rfl

/-- C8, amended: there is no negative-delay guard. With drift control the delay
the Sequencer uses is the value of the `double` expression of line 226 (computed
in binary64) truncated toward zero, whatever its sign, never clamped; under
`ABS_DELAY` it is added as it is to the clock reading. Whenever that value is
`-1` or less, the delay used is negative and the deadline lies before the clock
reading; that deadline is what every call of the wait of the tick receives. -/
theorem C8_delay_is_truncated_raw_value (cfg : Config) (start_time : ℚ) (e : TickEnv)
    (st : SeqState) (hd : cfg.DRIFT_CONTROL = true) (ha : cfg.ABS_DELAY = true) :
    (Dbl.driftBlock cfg { st with current_time := Dbl.getTimeMsec start_time e.event_ts,
                                  delay_cnt := 0 }).delay_time.tv_nsec
        = truncQ (Dbl.rawDelay cfg start_time e st)
      ∧ (Dbl.prepare cfg start_time e st).delay_time.tv_sec * NANOSEC_PER_SEC
          + (Dbl.prepare cfg start_time e st).delay_time.tv_nsec
        = e.current_time_val.tv_sec * NANOSEC_PER_SEC + e.current_time_val.tv_nsec
          + truncQ (Dbl.rawDelay cfg start_time e st)
      ∧ (Dbl.rawDelay cfg start_time e st ≤ -1 →
          truncQ (Dbl.rawDelay cfg start_time e st) < 0
          ∧ (Dbl.prepare cfg start_time e st).delay_time.tv_sec * NANOSEC_PER_SEC
              + (Dbl.prepare cfg start_time e st).delay_time.tv_nsec
            < e.current_time_val.tv_sec * NANOSEC_PER_SEC + e.current_time_val.tv_nsec)
      ∧ (completes e.rcs = true →
          ∃ st1 k, Dbl.tickBody cfg start_time e st = .ok st1
            ∧ st1.trace = st.trace
              ++ List.replicate (k + 1)
                  (Event.nanosleep true (Dbl.prepare cfg start_time e st).delay_time)
              ++ (releases st.seqCnt).map Event.post) := by
  have h1 := dbl_driftBlock_delay_nsec cfg start_time e st hd
  have h2 : (Dbl.prepare cfg start_time e st).delay_time.tv_sec * NANOSEC_PER_SEC
          + (Dbl.prepare cfg start_time e st).delay_time.tv_nsec
        = e.current_time_val.tv_sec * NANOSEC_PER_SEC + e.current_time_val.tv_nsec
          + truncQ (Dbl.rawDelay cfg start_time e st) := by
    rw [← h1]
    simp only [Dbl.prepare, absBlock, ha, if_true, absDeadline]
    split_ifs <;> simp only <;> ring
  refine ⟨h1, h2, ?_, ?_⟩
  · intro hneg
    have := truncQ_neg _ hneg
    exact ⟨by omega, by rw [h2]; omega⟩
  · intro hw
    obtain ⟨st1, k, hrun, htr⟩ := dbl_tickBody_completes cfg start_time e st hw
    exact ⟨st1, k, hrun, by rw [htr, ha]⟩

/-- Witness of the amended C8: the late tick under the sample configuration. -/
theorem C8_delay_is_truncated_raw_value_witness :
    (Dbl.driftBlock sampleCfg
        { Dbl.seqInit sampleCfg 0 ⟨0, 0⟩ with
          current_time := Dbl.getTimeMsec 0 lateTick.event_ts,
          delay_cnt := 0 }).delay_time.tv_nsec
        = truncQ (Dbl.rawDelay sampleCfg 0 lateTick (Dbl.seqInit sampleCfg 0 ⟨0, 0⟩))
      ∧ (Dbl.prepare sampleCfg 0 lateTick (Dbl.seqInit sampleCfg 0 ⟨0, 0⟩)).delay_time.tv_sec
            * NANOSEC_PER_SEC
          + (Dbl.prepare sampleCfg 0 lateTick (Dbl.seqInit sampleCfg 0 ⟨0, 0⟩)).delay_time.tv_nsec
        = lateTick.current_time_val.tv_sec * NANOSEC_PER_SEC + lateTick.current_time_val.tv_nsec
          + truncQ (Dbl.rawDelay sampleCfg 0 lateTick (Dbl.seqInit sampleCfg 0 ⟨0, 0⟩))
      ∧ (Dbl.rawDelay sampleCfg 0 lateTick (Dbl.seqInit sampleCfg 0 ⟨0, 0⟩) ≤ -1 →
          truncQ (Dbl.rawDelay sampleCfg 0 lateTick (Dbl.seqInit sampleCfg 0 ⟨0, 0⟩)) < 0
          ∧ (Dbl.prepare sampleCfg 0 lateTick (Dbl.seqInit sampleCfg 0 ⟨0, 0⟩)).delay_time.tv_sec
                * NANOSEC_PER_SEC
              + (Dbl.prepare sampleCfg 0 lateTick
                  (Dbl.seqInit sampleCfg 0 ⟨0, 0⟩)).delay_time.tv_nsec
            < lateTick.current_time_val.tv_sec * NANOSEC_PER_SEC
              + lateTick.current_time_val.tv_nsec)
      ∧ (completes lateTick.rcs = true →
          ∃ st1 k, Dbl.tickBody sampleCfg 0 lateTick (Dbl.seqInit sampleCfg 0 ⟨0, 0⟩) = .ok st1
            ∧ st1.trace = (Dbl.seqInit sampleCfg 0 ⟨0, 0⟩).trace
              ++ List.replicate (k + 1)
                  (Event.nanosleep true
                    (Dbl.prepare sampleCfg 0 lateTick (Dbl.seqInit sampleCfg 0 ⟨0, 0⟩)).delay_time)
              ++ (releases (Dbl.seqInit sampleCfg 0 ⟨0, 0⟩).seqCnt).map Event.post) :=
  C8_delay_is_truncated_raw_value sampleCfg 0 lateTick (Dbl.seqInit sampleCfg 0 ⟨0, 0⟩) rfl rfl

/-- C9: without drift control, on every tick, whatever the state left by the
previous ticks and whatever the clock readings, the delay the Sequencer uses is
`std_delay_time`, that is `(0, RTSEQ_DELAY_NSEC)`; in relative mode this is the
request of the wait, under `ABS_DELAY` it is what the carry step adds to the
clock reading. -/
theorem C9_delay_without_drift_control (cfg : Config) (start_time : ℚ) (e : TickEnv)
    (st : SeqState) (hd : cfg.DRIFT_CONTROL = false) :
    (driftBlock cfg { st with current_time := getTimeMsec start_time e.event_ts,
                              delay_cnt := 0 }).delay_time
        = { tv_sec := 0, tv_nsec := cfg.RTSEQ_DELAY_NSEC }
      ∧ (prepare cfg start_time e st).delay_time
        = (if cfg.ABS_DELAY then absDeadline e.current_time_val else id)
            { tv_sec := 0, tv_nsec := cfg.RTSEQ_DELAY_NSEC } := by
  refine ⟨by simp [driftBlock, hd, std_delay_time], ?_⟩
  rw [prepare_delay_time]
  simp [hd, std_delay_time]

/-- Witness of C9: the late tick under the sample configuration without drift
control. -/
theorem C9_delay_without_drift_control_witness :
    (driftBlock noDriftCfg
        { seqInit noDriftCfg 0 ⟨0, 0⟩ with
          current_time := getTimeMsec 0 lateTick.event_ts,
          delay_cnt := 0 }).delay_time
        = { tv_sec := 0, tv_nsec := noDriftCfg.RTSEQ_DELAY_NSEC }
      ∧ (prepare noDriftCfg 0 lateTick (seqInit noDriftCfg 0 ⟨0, 0⟩)).delay_time
        = (if noDriftCfg.ABS_DELAY then absDeadline lateTick.current_time_val else id)
            { tv_sec := 0, tv_nsec := noDriftCfg.RTSEQ_DELAY_NSEC } :=
  C9_delay_without_drift_control noDriftCfg 0 lateTick (seqInit noDriftCfg 0 ⟨0, 0⟩) rfl

/-- C10: for every `k`, a tick whose wait returns `EINTR` `k` times and then `0`
calls `clock_nanosleep` `k + 1` times, each time with the same `delay_time`
(the deadline computed before the delay loop), ends the delay loop with
`delay_cnt = k`, raises no failure, and then posts the same releases and leaves
the same state (apart from `delay_cnt` and the repeated calls in the trace) as the
tick whose wait returns `0` at once. -/
theorem C10_interrupted_wait_retried (cfg : Config) (start_time : ℚ) (e : TickEnv)
    (st : SeqState) (k : Nat) :
    ∃ st1 st0, tickBody cfg start_time { e with rcs := interrupted k 0 } st = .ok st1
      ∧ tickBody cfg start_time { e with rcs := [0] } st = .ok st0
      ∧ st1.trace = st.trace
          ++ List.replicate (k + 1)
              (Event.nanosleep cfg.ABS_DELAY (prepare cfg start_time e st).delay_time)
          ++ (releases st.seqCnt).map Event.post
      ∧ st0.trace = st.trace
          ++ [Event.nanosleep cfg.ABS_DELAY (prepare cfg start_time e st).delay_time]
          ++ (releases st.seqCnt).map Event.post
      ∧ st1.delay_cnt = k
      ∧ st1 = { st0 with delay_cnt := k, trace := st1.trace } := by
  obtain ⟨st1, hrun1, d1, c1, l1, s1, n1, q1, a1, b1, e1, t1⟩ :=
    tickBody_fields cfg start_time { e with rcs := interrupted k 0 } st k 0 [] rfl
      (by decide) (by decide)
  obtain ⟨st0, hrun0, d0, c0, l0, s0, _, q0, a0, b0, e0, t0⟩ :=
    tickBody_fields cfg start_time { e with rcs := [0] } st 0 0 [] rfl (by decide) (by decide)
  have hp1 : prepare cfg start_time { e with rcs := interrupted k 0 } st
      = prepare cfg start_time e st := rfl
  have hp0 : prepare cfg start_time { e with rcs := [0] } st = prepare cfg start_time e st := rfl
  rw [hp1] at d1 s1 t1
  rw [hp0] at d0 s0 t0
  refine ⟨st1, st0, hrun1, hrun0, t1, t0, n1, ?_⟩
  cases st1
  cases st0
  simp only [SeqState.mk.injEq] at *
  refine ⟨?_, ?_, ?_, ?_, ?_, ?_, ?_, ?_, ?_, ?_⟩ <;> simp_all

/-- C11 (a positive error code is not fatal): a wait that returns `EINVAL`, which
is neither `0` nor `EINTR`, does not end the run; the test of line 265 is
`rc < 0`, and the tick goes on to post its releases. -/
theorem C11_positive_error_not_fatal :
    EINVAL ≠ 0 ∧ EINVAL ≠ EINTR
      ∧ ∃ st1 d, tickBody sampleCfg 0 failedTick (seqInit sampleCfg 0 ⟨0, 0⟩) = .ok st1
        ∧ st1.trace = [Event.nanosleep true d, Event.post Sem.semS1, Event.post Sem.semS2,
            Event.post Sem.semS3] := by
  obtain ⟨st1, hrun, -, -, -, -, -, -, -, -, -, htr⟩ :=
    tickBody_fields sampleCfg 0 failedTick (seqInit sampleCfg 0 ⟨0, 0⟩) 0 EINVAL [] rfl
      (by decide) (by decide)
  exact ⟨by decide, by decide, st1, _, hrun, htr⟩

/-- C12, as stated, fails for the tick limit `0`: the loop is a `do .. while`, so
one body runs before the first test; the loop ends with `seqCnt = 1`, after one
wait and the three releases of sequence count `0`, and with no tick at all in
the environment it is still waiting for its first body. -/
theorem C12_zero_ticks_runs_one_body :
    (∃ st d, sequencerLoop sampleCfg 0 0 ⟨0, 0⟩ [quietTick] = .ok st
        ∧ st.seqCnt = 1
        ∧ st.trace = [Event.nanosleep true d, Event.post Sem.semS1, Event.post Sem.semS2,
            Event.post Sem.semS3])
      ∧ sequencerLoop sampleCfg 0 0 ⟨0, 0⟩ [] = .error (.starved []) := by
  refine ⟨?_, rfl⟩
  obtain ⟨st1, hrun, hcnt, hbody⟩ :=
    seqLoop_zero sampleCfg 0 quietTick [] (seqInit sampleCfg 0 ⟨0, 0⟩) rfl (by decide)
  obtain ⟨st2, hrun2, -, -, -, -, -, -, -, -, -, htr⟩ :=
    tickBody_fields sampleCfg 0 quietTick (seqInit sampleCfg 0 ⟨0, 0⟩) 0 0 [] rfl
      (by decide) (by decide)
  have e12 : st1 = st2 := by
    rw [hbody] at hrun2; exact Except.ok.inj hrun2
  subst e12
  exact ⟨st1, _, hrun, hcnt, htr⟩

/-- C12, amended: for every tick limit `N` below `2 ^ 64`, when no abort is
requested and every wait completes, the loop of the Sequencer terminates after
exactly `max N 1` loop bodies and leaves `seqCnt = max N 1`: it returns on the
first `max N 1` ticks of the environment, whatever follows them, and on fewer
ticks it is still waiting for a body. For `1 ≤ N` this is `N`. -/
theorem C12_loop_bodies (cfg : Config) (start_time : ℚ) (N : Nat) (init_ts : timespec)
    (env : List TickEnv) (h64 : N < 2 ^ 64) (hlen : max N 1 ≤ env.length)
    (hgood : ∀ e ∈ env, completes e.rcs = true ∧ e.abortTest = false) :
    ∃ st, sequencerLoop cfg start_time N init_ts env = .ok st
      ∧ st.seqCnt = max N 1
      ∧ sequencerLoop cfg start_time N init_ts (env.take (max N 1)) = .ok st
      ∧ ∀ m, m < max N 1 →
          ∃ tr, sequencerLoop cfg start_time N init_ts (env.take m) = .error (.starved tr) := by
  rcases Nat.eq_zero_or_pos N with h0 | hpos
  · subst h0
    match env, hlen, hgood with
    | [], hlen, _ => simp at hlen
    | e :: es, _, hgood =>
      obtain ⟨st1, hrun, hcnt, hbody⟩ :=
        seqLoop_zero cfg start_time e es (seqInit cfg start_time init_ts) rfl
          (hgood e (by simp)).1
      obtain ⟨st2, hrun2, -, hbody2⟩ :=
        seqLoop_zero cfg start_time e [] (seqInit cfg start_time init_ts) rfl
          (hgood e (by simp)).1
      have e12 : st2 = st1 := by
        rw [hbody] at hbody2; exact (Except.ok.inj hbody2).symm
      subst e12
      refine ⟨st2, hrun, by simpa using hcnt, by simpa [sequencerLoop] using hrun2, ?_⟩
      intro m hm
      have hm0 : m = 0 := by
        have : m < 1 := by simpa using hm
        omega
      subst hm0
      exact ⟨_, rfl⟩
  · have hmax : max N 1 = N := max_eq_left hpos
    rw [hmax] at hlen ⊢
    have hgoodN : ∀ e ∈ env.take N, completes e.rcs = true ∧ e.abortTest = false :=
      fun e he => hgood e (List.mem_of_mem_take he)
    obtain ⟨st, hrun, hcnt, -⟩ :=
      seqLoop_run cfg start_time N h64 N env (seqInit cfg start_time init_ts) hpos
        (by simp [seqInit]) hlen hgoodN
    have htake := seqLoop_take cfg start_time N h64 N env (seqInit cfg start_time init_ts)
      hpos (by simp [seqInit]) hlen hgoodN
    refine ⟨st, hrun, hcnt, ?_, ?_⟩
    · unfold sequencerLoop
      rw [← htake]; exact hrun
    · intro m hm
      exact seqLoop_starved cfg start_time N h64 N (env.take m)
        (seqInit cfg start_time init_ts) (by simp [seqInit])
        (by rw [List.length_take]; omega)
        (fun e he => hgood e (List.mem_of_mem_take he))

/-- Witness of the amended C12: seven quiet ticks under the sample configuration. -/
theorem C12_loop_bodies_witness :
    ∃ st, sequencerLoop sampleCfg 0 7 ⟨0, 0⟩ (List.replicate 7 quietTick) = .ok st
      ∧ st.seqCnt = max 7 1
      ∧ sequencerLoop sampleCfg 0 7 ⟨0, 0⟩ ((List.replicate 7 quietTick).take (max 7 1)) = .ok st
      ∧ ∀ m, m < max 7 1 →
          ∃ tr, sequencerLoop sampleCfg 0 7 ⟨0, 0⟩ ((List.replicate 7 quietTick).take m)
            = .error (.starved tr) :=
  C12_loop_bodies sampleCfg 0 7 ⟨0, 0⟩ (List.replicate 7 quietTick) (by norm_num) (by simp)
    (by intro e he; rw [List.eq_of_mem_replicate he]; decide)

/-- C13: whenever the loop of the Sequencer ends, at the tick limit or on an
abort request, the Sequencer posts exactly one more permit to each of `semS1`,
`semS2`, `semS3` and leaves `abortS1`, `abortS2`, `abortS3` true; the posts of
the run to each service are the regular releases of the loop plus one. -/
theorem C13_draining (cfg : Config) (start_time : ℚ) (N : Nat) (init_ts : timespec)
    (env : List TickEnv) (st : SeqState)
    (h : sequencerLoop cfg start_time N init_ts env = .ok st) :
    ∃ fin, Sequencer cfg start_time N init_ts env = .ok fin
      ∧ fin.trace = st.trace
          ++ [Event.post Sem.semS1, Event.post Sem.semS2, Event.post Sem.semS3]
      ∧ (∀ s, posts s fin.trace = posts s st.trace + 1)
      ∧ fin.abortS1 = true ∧ fin.abortS2 = true ∧ fin.abortS3 = true := by
  refine ⟨shutdown st, by simp [Sequencer, h], rfl, fun s => posts_shutdown s st, rfl, rfl, rfl⟩

/-- Witness of C13: a run of the sample configuration that is aborted during
its first tick, with the tick limit 150. -/
theorem C13_draining_witness :
    ∃ st fin, sequencerLoop sampleCfg 0 150 ⟨0, 0⟩ [abortTick] = .ok st
      ∧ Sequencer sampleCfg 0 150 ⟨0, 0⟩ [abortTick] = .ok fin
      ∧ fin.trace = st.trace
          ++ [Event.post Sem.semS1, Event.post Sem.semS2, Event.post Sem.semS3]
      ∧ (∀ s, posts s fin.trace = posts s st.trace + 1)
      ∧ fin.abortS1 = true ∧ fin.abortS2 = true ∧ fin.abortS3 = true := by
  obtain ⟨st, hrun, -⟩ :=
    seqLoop_abort sampleCfg 0 150 abortTick [] (seqInit sampleCfg 0 ⟨0, 0⟩) rfl (by decide)
  obtain ⟨fin, hfin⟩ := C13_draining sampleCfg 0 150 ⟨0, 0⟩ [abortTick] st hrun
  exact ⟨st, fin, hrun, hfin⟩

/-- C14, as stated, fails: a Service thread that wakes in `sem_wait` while its
abort flag is already set still increments its release counter, here from `0` to
`1`, and leaves the loop only at the next test of the flag. In the shutdown of a
run in which Service_1 never got a regular release, the forced permit alone brings
its counter to `1`. -/
theorem C14_forced_wake_is_counted :
    serviceStep true 1 { pc := .waiting, SCnt := 0 } = some ({ pc := .test, SCnt := 1 }, 0)
      ∧ serviceStep true 0 { pc := .test, SCnt := 1 } = some ({ pc := .exited, SCnt := 1 }, 0)
      ∧ ∃ y, runSched (List.replicate 6 Actor.sequencer
                ++ [Actor.service Sem.semS1, Actor.service Sem.semS1]) idleSys = some y
          ∧ y.svc1 = { pc := .exited, SCnt := 1 } := by
  refine ⟨by decide, by decide, _, rfl, by decide⟩

/-- C14, amended: a Service thread tests its abort flag only before it waits,
not when it wakes. Each wake from `sem_wait` takes one permit and increments the
release counter by exactly one (modulo `2 ^ 64`), whatever the value of the
abort flag; without a permit the thread stays blocked; at the test a set flag
ends the loop and a clear flag leads to `sem_wait`, the counter unchanged in
both cases. -/
theorem C14_service_step (abortS : Bool) (sem c : Nat) :
    serviceStep abortS (sem + 1) { pc := .waiting, SCnt := c }
        = some ({ pc := .test, SCnt := (c + 1) % 2 ^ 64 }, sem)
      ∧ serviceStep abortS 0 { pc := .waiting, SCnt := c } = none
      ∧ serviceStep true sem { pc := .test, SCnt := c } = some ({ pc := .exited, SCnt := c }, sem)
      ∧ serviceStep false sem { pc := .test, SCnt := c }
        = some ({ pc := .waiting, SCnt := c }, sem) := by
  refine ⟨?_, ?_, ?_, ?_⟩ <;> simp [serviceStep]

/-- C15, as stated, fails: from the state in which the three Service threads
are in `sem_wait` without permits, the interleaving `racySched` lets Service_1
take the forced permit and test `abortS1` before the Sequencer sets it. It ends
in a state where the Sequencer has exited, Service_1 is in `sem_wait`, `semS1`
is `0`, and no thread can move. -/
theorem C15_deadlock_reachable :
    ∃ y, runSched racySched idleSys = some y
      ∧ y.seqPc = 6
      ∧ (y.svc Sem.semS1).pc = SvcPc.waiting
      ∧ y.sem Sem.semS1 = 0
      ∧ y.abort Sem.semS1 = true
      ∧ ∀ a, sysStep a y = none := by
  refine ⟨_, rfl, by decide, by decide, by decide, by decide, ?_⟩
  intro a
  cases a with
  | sequencer => rfl
  | service s => cases s <;> rfl

/-- C15, amended: when the six statements of the shutdown sequence run without
a Service step in between, from any state of the semaphores, flags and Service
threads, every interleaving that follows has at most six steps, ends with the
Sequencer exited, never leaves a Service thread blocked (a thread that has not
left its loop can move), and a state in which no thread can move has every
Service thread out of its loop. -/
theorem C15_uninterrupted_shutdown_drains (y0 y : Sys) (sched : List Actor)
    (h0 : y0.seqPc = 0)
    (hrun : runSched (List.replicate 6 Actor.sequencer ++ sched) y0 = some y) :
    y.seqPc = 6
      ∧ sched.length ≤ 6
      ∧ (∀ s, (y.svc s).pc = SvcPc.exited ∨ ∃ y1, sysStep (Actor.service s) y = some y1)
      ∧ ((∀ a, sysStep a y = none) → ∀ s, (y.svc s).pc = SvcPc.exited) := by
  rw [runSched_append, runSched_shutdown y0 h0] at hrun
  simp only at hrun
  have hinv0 : DrainInv { y0 with
      seqPc := 6
      semS1 := y0.semS1 + 1
      semS2 := y0.semS2 + 1
      semS3 := y0.semS3 + 1
      abortS1 := true
      abortS2 := true
      abortS3 := true } := by
    refine ⟨rfl, fun s => by cases s <;> rfl, fun s _ => by cases s <;> simp [Sys.sem]⟩
  obtain ⟨hinv, htot⟩ := drainInv_run sched _ y hinv0 hrun
  have hfree : ∀ s, (y.svc s).pc = SvcPc.exited ∨ ∃ y1, sysStep (Actor.service s) y = some y1 := by
    intro s
    by_cases hex : (y.svc s).pc = SvcPc.exited
    · exact Or.inl hex
    · exact Or.inr (drainInv_enabled y hinv s hex)
  refine ⟨hinv.1, ?_, hfree, ?_⟩
  · have b1 := remaining_le_two y0.svc1
    have b2 := remaining_le_two y0.svc2
    have b3 := remaining_le_two y0.svc3
    simp only [totalRemaining] at htot
    omega
  · intro hdead s
    rcases hfree s with hex | ⟨y1, hy1⟩
    · exact hex
    · rw [hdead] at hy1; exact absurd hy1 (by simp)

/-- Witness of the amended C15: after the uninterrupted shutdown from `idleSys`,
Service_1 takes its two steps and Service_2 its first. -/
theorem C15_uninterrupted_shutdown_drains_witness :
    ∃ y, runSched (List.replicate 6 Actor.sequencer
            ++ [Actor.service Sem.semS1, Actor.service Sem.semS1, Actor.service Sem.semS2])
          idleSys = some y
      ∧ y.seqPc = 6
      ∧ [Actor.service Sem.semS1, Actor.service Sem.semS1, Actor.service Sem.semS2].length ≤ 6
      ∧ (∀ s, (y.svc s).pc = SvcPc.exited ∨ ∃ y1, sysStep (Actor.service s) y = some y1)
      ∧ ((∀ a, sysStep a y = none) → ∀ s, (y.svc s).pc = SvcPc.exited) :=
  ⟨_, rfl, C15_uninterrupted_shutdown_drains idleSys _
    [Actor.service Sem.semS1, Actor.service Sem.semS1, Actor.service Sem.semS2] rfl rfl⟩

/-- C16: in every run of the loop that returns (tick limit below `2 ^ 64`), the
trace of the Sequencer is a sequence of whole ticks, numbered from `0`: the
calls of the wait of tick `t` (one more than its interruptions, all with the same
`delay_time`), then the posts of tick `t`, then the calls of the wait of tick
`t + 1`; and the posts of one tick come in the order `semS1`, `semS2`, `semS3`. -/
theorem C16_release_ordering (cfg : Config) (start_time : ℚ) (N : Nat) (init_ts : timespec)
    (env : List TickEnv) (st : SeqState) (h64 : N < 2 ^ 64)
    (h : sequencerLoop cfg start_time N init_ts env = .ok st) :
    (∃ ws, ws ≠ [] ∧ st.seqCnt = ws.length ∧ st.trace = ticksTrace cfg.ABS_DELAY 0 ws)
      ∧ ∀ t, (releases t).Sublist [Sem.semS1, Sem.semS2, Sem.semS3] := by
  obtain ⟨ws, hne, hlen, htr⟩ :=
    seqLoop_trace cfg start_time N h64 env (seqInit cfg start_time init_ts) st
      (by simp [seqInit]) h
  refine ⟨⟨ws, hne, by simpa [seqInit] using hlen, by simpa [seqInit] using htr⟩,
    releases_sublist⟩

/-- Witness of C16: seven quiet ticks under the sample configuration. -/
theorem C16_release_ordering_witness :
    ∃ st, sequencerLoop sampleCfg 0 7 ⟨0, 0⟩ (List.replicate 7 quietTick) = .ok st
      ∧ (∃ ws, ws ≠ [] ∧ st.seqCnt = ws.length ∧ st.trace = ticksTrace sampleCfg.ABS_DELAY 0 ws)
      ∧ ∀ t, (releases t).Sublist [Sem.semS1, Sem.semS2, Sem.semS3] := by
  obtain ⟨st, hrun, -⟩ :=
    sequencerLoop_counts sampleCfg 0 7 ⟨0, 0⟩ (List.replicate 7 quietTick) (by decide)
      (by norm_num) (by simp) (by intro e he; rw [List.eq_of_mem_replicate he]; decide)
  exact ⟨st, hrun, C16_release_ordering sampleCfg 0 7 ⟨0, 0⟩ (List.replicate 7 quietTick) st
    (by norm_num) hrun⟩

/-- C17: for every value of `rt_max_prio`, when `main` reaches the creation of
the threads, the priorities it has assigned (in `rt_param`, in the thread
attributes, and so at the calls of `pthread_create`) are `rt_max_prio` for the
Sequencer, `rt_max_prio - 1` for Service_1, `rt_max_prio - 2` for Service_2 and
`rt_max_prio - 3` for Service_3: the Sequencer is strictly above every Service,
and the Service priorities strictly decrease from Service_1 to Service_3. -/
theorem C17_rate_monotonic_priorities (env : MainEnv) (h1 : env.sem_init_S1 = 0)
    (h2 : env.sem_init_S2 = 0) (h3 : env.sem_init_S3 = 0) (hs : env.schedType = SCHED_FIFO) :
    (main env).rt_param
        = [env.rt_max_prio, env.rt_max_prio - 1, env.rt_max_prio - 2, env.rt_max_prio - 3]
      ∧ (main env).rt_sched_attr = (main env).rt_param
      ∧ MainEvent.pthread_create 0 Routine.Sequencer env.rt_max_prio env.create_rc0
          ∈ (main env).trace
      ∧ MainEvent.pthread_create 1 Routine.Service_1 (env.rt_max_prio - 1) env.create_rc1
          ∈ (main env).trace
      ∧ MainEvent.pthread_create 2 Routine.Service_2 (env.rt_max_prio - 2) env.create_rc2
          ∈ (main env).trace
      ∧ MainEvent.pthread_create 3 Routine.Service_3 (env.rt_max_prio - 3) env.create_rc3
          ∈ (main env).trace
      ∧ env.rt_max_prio - 3 < env.rt_max_prio - 2
      ∧ env.rt_max_prio - 2 < env.rt_max_prio - 1
      ∧ env.rt_max_prio - 1 < env.rt_max_prio := by
  rw [main_started env h1 h2 h3 hs]
  refine ⟨rfl, rfl, by simp, by simp, by simp, by simp, by omega, by omega, by omega⟩

/-- Witness of C17: the sample environment, with `rt_max_prio = 99`. -/
theorem C17_rate_monotonic_priorities_witness :
    (main sampleMainEnv).rt_param
        = [sampleMainEnv.rt_max_prio, sampleMainEnv.rt_max_prio - 1,
            sampleMainEnv.rt_max_prio - 2, sampleMainEnv.rt_max_prio - 3]
      ∧ (main sampleMainEnv).rt_sched_attr = (main sampleMainEnv).rt_param
      ∧ MainEvent.pthread_create 0 Routine.Sequencer sampleMainEnv.rt_max_prio
            sampleMainEnv.create_rc0 ∈ (main sampleMainEnv).trace
      ∧ MainEvent.pthread_create 1 Routine.Service_1 (sampleMainEnv.rt_max_prio - 1)
            sampleMainEnv.create_rc1 ∈ (main sampleMainEnv).trace
      ∧ MainEvent.pthread_create 2 Routine.Service_2 (sampleMainEnv.rt_max_prio - 2)
            sampleMainEnv.create_rc2 ∈ (main sampleMainEnv).trace
      ∧ MainEvent.pthread_create 3 Routine.Service_3 (sampleMainEnv.rt_max_prio - 3)
            sampleMainEnv.create_rc3 ∈ (main sampleMainEnv).trace
      ∧ sampleMainEnv.rt_max_prio - 3 < sampleMainEnv.rt_max_prio - 2
      ∧ sampleMainEnv.rt_max_prio - 2 < sampleMainEnv.rt_max_prio - 1
      ∧ sampleMainEnv.rt_max_prio - 1 < sampleMainEnv.rt_max_prio :=
  C17_rate_monotonic_priorities sampleMainEnv rfl rfl rfl rfl

/-- C18 (the retry sleeps the full delay again): in relative-delay mode, a wait
of 10 ms that is interrupted once is called a second time with the same request
`(0, 10000000)`; the value the interrupted call stores in `remaining_time` is
never read. The two requests add up to 20 ms, not to the delay of the tick. -/
theorem C18_retry_requests_full_delay :
    ∃ st1, tickBody relativeCfg 0 interruptedTick (seqInit relativeCfg 0 ⟨0, 0⟩) = .ok st1
      ∧ st1.trace = [Event.nanosleep false ⟨0, 10000000⟩, Event.nanosleep false ⟨0, 10000000⟩,
          Event.post Sem.semS1, Event.post Sem.semS2, Event.post Sem.semS3] := by
  obtain ⟨st1, hrun, -, -, -, -, -, -, -, -, -, htr⟩ :=
    tickBody_fields relativeCfg 0 interruptedTick (seqInit relativeCfg 0 ⟨0, 0⟩) 1 0 [] rfl
      (by decide) (by decide)
  have hd : (prepare relativeCfg 0 interruptedTick (seqInit relativeCfg 0 ⟨0, 0⟩)).delay_time
      = ⟨0, 10000000⟩ := by
    rw [prepare_delay_time]; rfl
  rw [hd] at htr
  exact ⟨st1, hrun, htr⟩

/-- C19: if any of the three calls of `sem_init` returns a non-zero value, `main`
calls `exit(-1)`, a non-zero status, and has made no call other than `sem_init`
before: no thread has been created. -/
theorem C19_sem_init_failure_exits (env : MainEnv)
    (hfail : env.sem_init_S1 ≠ 0 ∨ env.sem_init_S2 ≠ 0 ∨ env.sem_init_S3 ≠ 0) :
    (main env).exit = some (-1) ∧ (-1 : Int) ≠ 0
      ∧ ∀ ev ∈ (main env).trace, ∃ s, ev = MainEvent.sem_init s := by
  refine ⟨?_, by decide, ?_⟩
  · unfold main
    by_cases h1 : env.sem_init_S1 = 0 <;> by_cases h2 : env.sem_init_S2 = 0 <;>
      by_cases h3 : env.sem_init_S3 = 0 <;> simp_all
  · unfold main
    by_cases h1 : env.sem_init_S1 = 0 <;> by_cases h2 : env.sem_init_S2 = 0 <;>
      by_cases h3 : env.sem_init_S3 = 0 <;> simp_all [mainInit]

/-- Witness of C19: the second `sem_init` fails. -/
theorem C19_sem_init_failure_exits_witness :
    (main semFailEnv).exit = some (-1) ∧ (-1 : Int) ≠ 0
      ∧ ∀ ev ∈ (main semFailEnv).trace, ∃ s, ev = MainEvent.sem_init s :=
  C19_sem_init_failure_exits semFailEnv (Or.inr (Or.inl (by decide)))

/-- C20, as stated, fails: when `pthread_create` fails for Service_1 (it returns
`EAGAIN`), `main` does not exit; it goes on to create Service_2, Service_3 and
the Sequencer and then joins the four thread slots, slot 1 included. -/
theorem C20_create_failure_not_fatal :
    createFailEnv.create_rc1 ≠ 0
      ∧ (main createFailEnv).exit = none
      ∧ (main createFailEnv).trace
        = [MainEvent.sem_init Sem.semS1, MainEvent.sem_init Sem.semS2,
            MainEvent.sem_init Sem.semS3,
            MainEvent.pthread_create 1 Routine.Service_1 98 EAGAIN,
            MainEvent.pthread_create 2 Routine.Service_2 97 0,
            MainEvent.pthread_create 3 Routine.Service_3 96 0,
            MainEvent.pthread_create 0 Routine.Sequencer 99 0,
            MainEvent.pthread_join 0, MainEvent.pthread_join 1, MainEvent.pthread_join 2,
            MainEvent.pthread_join 3] := by
  decide

/-- C20, amended: a failure of `pthread_create` does not abort start-up. Once
the three semaphores are initialised and the policy is `SCHED_FIFO`, `main`
makes the four calls of `pthread_create` and then the four calls of
`pthread_join`, in the same order whatever the calls of `pthread_create`
return, and does not call `exit`. -/
theorem C20_create_failure_continues (env : MainEnv) (h1 : env.sem_init_S1 = 0)
    (h2 : env.sem_init_S2 = 0) (h3 : env.sem_init_S3 = 0) (hs : env.schedType = SCHED_FIFO) :
    (main env).exit = none
      ∧ (main env).trace
        = [MainEvent.sem_init Sem.semS1, MainEvent.sem_init Sem.semS2,
            MainEvent.sem_init Sem.semS3,
            MainEvent.pthread_create 1 Routine.Service_1 (env.rt_max_prio - 1) env.create_rc1,
            MainEvent.pthread_create 2 Routine.Service_2 (env.rt_max_prio - 2) env.create_rc2,
            MainEvent.pthread_create 3 Routine.Service_3 (env.rt_max_prio - 3) env.create_rc3,
            MainEvent.pthread_create 0 Routine.Sequencer env.rt_max_prio env.create_rc0,
            MainEvent.pthread_join 0, MainEvent.pthread_join 1, MainEvent.pthread_join 2,
            MainEvent.pthread_join 3] := by
  rw [main_started env h1 h2 h3 hs]
  exact ⟨rfl, rfl⟩

/-- Witness of the amended C20: creating Service_1 fails with `EAGAIN`. -/
theorem C20_create_failure_continues_witness :
    (main createFailEnv).exit = none
      ∧ (main createFailEnv).trace
        = [MainEvent.sem_init Sem.semS1, MainEvent.sem_init Sem.semS2,
            MainEvent.sem_init Sem.semS3,
            MainEvent.pthread_create 1 Routine.Service_1 (createFailEnv.rt_max_prio - 1)
              createFailEnv.create_rc1,
            MainEvent.pthread_create 2 Routine.Service_2 (createFailEnv.rt_max_prio - 2)
              createFailEnv.create_rc2,
            MainEvent.pthread_create 3 Routine.Service_3 (createFailEnv.rt_max_prio - 3)
              createFailEnv.create_rc3,
            MainEvent.pthread_create 0 Routine.Sequencer createFailEnv.rt_max_prio
              createFailEnv.create_rc0,
            MainEvent.pthread_join 0, MainEvent.pthread_join 1, MainEvent.pthread_join 2,
            MainEvent.pthread_join 3] :=
  C20_create_failure_continues createFailEnv rfl rfl rfl rfl

/-- C21 (no error when `stop` is a whole second or more earlier): for
`stop = (1, 0)` and `start = (2, 0)`, both normalised, `stop` is earlier than
`start`, and `delta_t` returns `OK`, not `ERROR`; it leaves the output as it
was, here `(7, 7)`. The function has no branch for a negative `dt_sec`. -/
theorem C21_earlier_second_returns_ok :
    RTClock.nanos ⟨1, 0⟩ < RTClock.nanos ⟨2, 0⟩
      ∧ RTClock.delta_t ⟨1, 0⟩ ⟨2, 0⟩ ⟨7, 7⟩ = (RTClock.OK, ⟨7, 7⟩)
      ∧ (RTClock.delta_t ⟨1, 0⟩ ⟨2, 0⟩ ⟨7, 7⟩).1 ≠ RTClock.ERROR := by
  decide

/-- C22: for normalised `stop` and `start` with `stop` not earlier than `start`
and a difference of the seconds that fits in `int`, `delta_t` returns `OK` and
writes a normalised result whose instant is `stop - start` in nanoseconds. -/
theorem C22_delta_t_difference (stop start delta : timespec)
    (hs : RTClock.normalised stop) (ht : RTClock.normalised start)
    (hle : RTClock.nanos start ≤ RTClock.nanos stop)
    (hfit : stop.tv_sec - start.tv_sec ≤ 2147483647) :
    (RTClock.delta_t stop start delta).1 = RTClock.OK
      ∧ 0 ≤ (RTClock.delta_t stop start delta).2.tv_nsec
      ∧ (RTClock.delta_t stop start delta).2.tv_nsec < 1000000000
      ∧ (RTClock.delta_t stop start delta).2.tv_sec * 1000000000
          + (RTClock.delta_t stop start delta).2.tv_nsec
        = (stop.tv_sec * 1000000000 + stop.tv_nsec)
          - (start.tv_sec * 1000000000 + start.tv_nsec) := by
  unfold RTClock.normalised RTClock.NSEC_PER_SEC at hs ht
  unfold RTClock.nanos RTClock.NSEC_PER_SEC at hle
  have h0 : 0 ≤ stop.tv_sec - start.tv_sec := by omega
  have e1 := toInt32_of_fits (stop.tv_sec - start.tv_sec) (by omega) hfit
  have e2 := toInt32_of_fits (stop.tv_nsec - start.tv_nsec) (by omega) (by omega)
  simp only [RTClock.delta_t, e1, e2, RTClock.NSEC_PER_SEC, RTClock.OK, RTClock.ERROR]
  clear e1 e2
  split_ifs <;> simp only <;>
    first
    | omega
    | (refine ⟨trivial, ?_, ?_, ?_⟩ <;> omega)

/-- Witness of C22: from `(1, 900000000)` to `(3, 100000000)`. -/
theorem C22_delta_t_difference_witness :
    (RTClock.delta_t ⟨3, 100000000⟩ ⟨1, 900000000⟩ ⟨0, 0⟩).1 = RTClock.OK
      ∧ 0 ≤ (RTClock.delta_t ⟨3, 100000000⟩ ⟨1, 900000000⟩ ⟨0, 0⟩).2.tv_nsec
      ∧ (RTClock.delta_t ⟨3, 100000000⟩ ⟨1, 900000000⟩ ⟨0, 0⟩).2.tv_nsec < 1000000000
      ∧ (RTClock.delta_t ⟨3, 100000000⟩ ⟨1, 900000000⟩ ⟨0, 0⟩).2.tv_sec * 1000000000
          + (RTClock.delta_t ⟨3, 100000000⟩ ⟨1, 900000000⟩ ⟨0, 0⟩).2.tv_nsec
        = ((3 : Int) * 1000000000 + 100000000) - ((1 : Int) * 1000000000 + 900000000) :=
  C22_delta_t_difference ⟨3, 100000000⟩ ⟨1, 900000000⟩ ⟨0, 0⟩ ⟨by decide, by decide⟩
    ⟨by decide, by decide⟩ (by decide) (by decide)


/-- C28: whenever `delta_t` returns `ERROR`, for all arguments, the output
timespec is left exactly as it was before the call. -/
theorem C28_delta_t_error_leaves_output (stop start delta : timespec)
    (herr : (RTClock.delta_t stop start delta).1 = RTClock.ERROR) :
    (RTClock.delta_t stop start delta).2 = delta := by
  revert herr
  simp only [RTClock.delta_t, RTClock.OK, RTClock.ERROR]
  split_ifs <;> simp

/-- Witness of C28: `stop = (0, 0)` is 5 ns earlier than `start = (0, 5)`. -/
theorem C28_delta_t_error_leaves_output_witness :
    (RTClock.delta_t ⟨0, 0⟩ ⟨0, 5⟩ ⟨7, 7⟩).2 = ⟨7, 7⟩ :=
  C28_delta_t_error_leaves_output ⟨0, 0⟩ ⟨0, 5⟩ ⟨7, 7⟩ (by decide)

/-- C27: `delay_test` resets `sleep_count` once, before the loop, and either
exits at once (`clock_getres` failed) or runs its 100 iterations. For every
sequence of outcomes of `nanosleep`, the loop makes at least 100 and at most
102 calls of `nanosleep`: at most as many retries as `sleep_count` has grown,
and at most two. Once `sleep_count` has reached `3`, a `do .. while` makes a
single call, whatever it returns. -/
theorem C27_retry_budget (env : RTClock.DelayEnv) (st : RTClock.DelayState) :
    (RTClock.delay_test env st = .error (-1)
        ∨ RTClock.delay_test env st
          = .ok (RTClock.delayTestLoop env { st with sleep_count := 0, calls := [] }))
      ∧ 100 ≤ (RTClock.delayTestLoop env { st with sleep_count := 0, calls := [] }).calls.length
      ∧ (RTClock.delayTestLoop env { st with sleep_count := 0, calls := [] }).calls.length ≤ 102
      ∧ (RTClock.delayTestLoop env { st with sleep_count := 0, calls := [] }).calls.length
          ≤ 100 + (RTClock.delayTestLoop env
              { st with sleep_count := 0, calls := [] }).sleep_count
      ∧ ∀ s : RTClock.DelayState, 3 ≤ s.sleep_count → s.sleep_count < 4294967295 →
          (RTClock.sleepLoop env s).calls = s.calls ++ [s.sleep_time] := by
  obtain ⟨a, b, -⟩ := delayTestLoop_calls env st
  refine ⟨?_, a, by omega, by omega, fun s h3 hx => sleepLoop_no_retry env s h3 hx⟩
  unfold RTClock.delay_test
  by_cases h : env.clock_getres = RTClock.ERROR
  · left; simp [h]
  · right; simp [h]

/-- C23, as stated, fails: a clock reading exactly one second after the epoch,
with `start_time = 0`, gives `1`, not `1000`, in binary64 as with exact
rationals: the value is in seconds. -/
theorem C23_one_second_is_one :
    Dbl.getTimeMsec 0 ⟨1, 0⟩ = 1 ∧ Dbl.getTimeMsec 0 ⟨1, 0⟩ ≠ 1000
      ∧ getTimeMsec 0 ⟨1, 0⟩ = 1 ∧ getTimeMsec 0 ⟨1, 0⟩ ≠ 1000 := by
  have h : getTimeMsec 0 ⟨1, 0⟩ = 1 := by
    norm_num [getTimeMsec, NANOSEC_PER_SEC]
  have hd : Dbl.getTimeMsec 0 ⟨1, 0⟩ = 1 := by
    rw [dbl_getTimeMsec_whole 1 (by norm_num) (by norm_num), Int.cast_one]
  exact ⟨hd, by rw [hd]; norm_num, h, by rw [h]; norm_num⟩

/-- C23, amended: `getTimeMsec` returns the time elapsed since `start_time` in
seconds, as a `double`. For every clock reading `(sec, nsec)` with
`0 ≤ nsec < 10 ^ 9` and `|sec| ≤ 2 ^ 31`, and every `start_time` (in seconds) with
`|start_time| ≤ 2 ^ 31`, the value computed in binary64 differs from
`sec + nsec / 10 ^ 9 - start_time` by at most one microsecond, the rounding of
the three operations; a whole-second reading taken from `start_time = 0` gives
exactly `sec`. -/
theorem C23_elapsed_seconds (start_time : ℚ) (sec nsec : Int)
    (hn0 : 0 ≤ nsec) (hn1 : nsec < 1000000000)
    (hs0 : -2147483648 ≤ sec) (hs1 : sec ≤ 2147483648)
    (ht : |start_time| ≤ 2147483648) :
    |Dbl.getTimeMsec start_time ⟨sec, nsec⟩
        - ((sec : ℚ) + (nsec : ℚ) / 1000000000 - start_time)| ≤ 1 / 1000000
      ∧ Dbl.getTimeMsec 0 ⟨sec, 0⟩ = sec := by
  refine ⟨?_, dbl_getTimeMsec_whole sec (by omega) (by omega)⟩
  have hq0 : (0 : ℚ) ≤ (nsec : ℚ) / 1000000000 := by
    have : (0 : ℚ) ≤ (nsec : ℚ) := by exact_mod_cast hn0
    positivity
  have hq1 : (nsec : ℚ) / 1000000000 ≤ 1 := by
    have : (nsec : ℚ) ≤ 1000000000 := by exact_mod_cast hn1.le
    rw [div_le_one (by norm_num)]
    exact this
  have hsec : |(sec : ℚ)| ≤ 2147483648 := by
    rw [abs_le]
    constructor
    · exact_mod_cast hs0
    · exact_mod_cast hs1
  have hmin : (2 : ℚ) ^ (-1022 : Int) ≤ 1 := zpow_le_one_of_nonpos₀ (by norm_num) (by norm_num)
  -- the three roundings
  have e1 := roundDouble_error ((nsec : ℚ) / 1000000000) 1
    (by rw [abs_of_nonneg hq0]; exact hq1) hmin
  have b1 : |Dbl.roundDouble ((nsec : ℚ) / 1000000000)| ≤ 2 := by
    have := abs_sub_abs_le_abs_sub (Dbl.roundDouble ((nsec : ℚ) / 1000000000))
      ((nsec : ℚ) / 1000000000)
    rw [abs_of_nonneg hq0] at this
    linarith
  have e2 := roundDouble_error ((sec : ℚ) + Dbl.roundDouble ((nsec : ℚ) / 1000000000))
    2147483650 (le_trans (abs_add _ _) (by linarith)) (le_trans hmin (by norm_num))
  have b2 : |Dbl.roundDouble ((sec : ℚ) + Dbl.roundDouble ((nsec : ℚ) / 1000000000))|
      ≤ 2147483651 := by
    have := abs_sub_abs_le_abs_sub
      (Dbl.roundDouble ((sec : ℚ) + Dbl.roundDouble ((nsec : ℚ) / 1000000000)))
      ((sec : ℚ) + Dbl.roundDouble ((nsec : ℚ) / 1000000000))
    have h3 := abs_add (sec : ℚ) (Dbl.roundDouble ((nsec : ℚ) / 1000000000))
    linarith
  have e3 := roundDouble_error
    (Dbl.roundDouble ((sec : ℚ) + Dbl.roundDouble ((nsec : ℚ) / 1000000000)) - start_time)
    4294967299 (le_trans (abs_sub _ _) (by linarith)) (le_trans hmin (by norm_num))
  unfold Dbl.getTimeMsec
  simp only [ofInt_small nsec (by omega) (by omega), ofInt_small sec (by omega) (by omega),
    ofInt_small NANOSEC_PER_SEC (by norm_num [NANOSEC_PER_SEC]) (by norm_num [NANOSEC_PER_SEC])]
  have hN : ((NANOSEC_PER_SEC : Int) : ℚ) = 1000000000 := by norm_num [NANOSEC_PER_SEC]
  rw [hN]
  rw [abs_le] at e1 e2 e3 ⊢
  constructor <;> linarith [e1.1, e1.2, e2.1, e2.2, e3.1, e3.2]

/-- Witness of the amended C23: the reading `(0, 30000000)` taken from the start
time `0`. -/
theorem C23_elapsed_seconds_witness :
    |Dbl.getTimeMsec 0 ⟨0, 30000000⟩
        - (((0 : Int) : ℚ) + ((30000000 : Int) : ℚ) / 1000000000 - 0)| ≤ 1 / 1000000
      ∧ Dbl.getTimeMsec 0 ⟨0, 0⟩ = ((0 : Int) : ℚ) :=
  C23_elapsed_seconds 0 0 30000000 (by decide) (by decide) (by decide) (by decide)
    (by norm_num)

/-- C25: with drift control, in the first tick `scale_dt` is the difference
between the first clock sample of the loop and the sample taken before the loop,
because `last_time` starts one period before that sample. When the two samples
are equal, `scale_dt` is `0` and the first delay is exactly
`RTSEQ_DELAY_NSEC - CLOCK_BIAS_NANOSEC`; `delay_time.tv_nsec` receives that value
truncated toward zero. -/
theorem C25_first_tick_scale (cfg : Config) (start_time : ℚ) (init_ts : timespec)
    (e : TickEnv) (hd : cfg.DRIFT_CONTROL = true) :
    (prepare cfg start_time e (seqInit cfg start_time init_ts)).scale_dt
        = getTimeMsec start_time e.event_ts - getTimeMsec start_time init_ts
      ∧ (e.event_ts = init_ts →
          (prepare cfg start_time e (seqInit cfg start_time init_ts)).scale_dt = 0
          ∧ rawDelay cfg start_time e (seqInit cfg start_time init_ts)
            = (cfg.RTSEQ_DELAY_NSEC : ℚ) - cfg.CLOCK_BIAS_NANOSEC
          ∧ (driftBlock cfg
              { seqInit cfg start_time init_ts with
                current_time := getTimeMsec start_time e.event_ts,
                delay_cnt := 0 }).delay_time.tv_nsec
            = truncQ ((cfg.RTSEQ_DELAY_NSEC : ℚ) - cfg.CLOCK_BIAS_NANOSEC)) := by
  have hs : (prepare cfg start_time e (seqInit cfg start_time init_ts)).scale_dt
      = getTimeMsec start_time e.event_ts - getTimeMsec start_time init_ts := by
    unfold prepare absBlock driftBlock
    cases cfg.ABS_DELAY <;> simp [hd, scaleDt, seqInit] <;> ring
  refine ⟨hs, ?_⟩
  intro heq
  have hraw : rawDelay cfg start_time e (seqInit cfg start_time init_ts)
      = (cfg.RTSEQ_DELAY_NSEC : ℚ) - cfg.CLOCK_BIAS_NANOSEC := by
    simp [rawDelay, driftExpr, scaleDt, seqInit, heq, std_delay_time]
  refine ⟨by rw [hs, heq]; ring, hraw, ?_⟩
  rw [driftBlock_delay_nsec cfg start_time e _ hd, hraw]

/-- Witness of C25: the first tick of a run under the sample configuration, its
clock sample equal to the one taken before the loop. -/
theorem C25_first_tick_scale_witness :
    (prepare sampleCfg 0 quietTick (seqInit sampleCfg 0 ⟨0, 0⟩)).scale_dt
        = getTimeMsec 0 quietTick.event_ts - getTimeMsec 0 ⟨0, 0⟩
      ∧ (quietTick.event_ts = ⟨0, 0⟩ →
          (prepare sampleCfg 0 quietTick (seqInit sampleCfg 0 ⟨0, 0⟩)).scale_dt = 0
          ∧ rawDelay sampleCfg 0 quietTick (seqInit sampleCfg 0 ⟨0, 0⟩)
            = (sampleCfg.RTSEQ_DELAY_NSEC : ℚ) - sampleCfg.CLOCK_BIAS_NANOSEC
          ∧ (driftBlock sampleCfg
              { seqInit sampleCfg 0 ⟨0, 0⟩ with
                current_time := getTimeMsec 0 quietTick.event_ts,
                delay_cnt := 0 }).delay_time.tv_nsec
            = truncQ ((sampleCfg.RTSEQ_DELAY_NSEC : ℚ) - sampleCfg.CLOCK_BIAS_NANOSEC)) :=
  C25_first_tick_scale sampleCfg 0 ⟨0, 0⟩ quietTick rfl

/-- C26: the abort request is read only by the loop condition, after the body.
If `abortTest` is set when the first tick reaches the condition (in particular
when it was set before the Sequencer started), the Sequencer still runs that one
tick in full: its wait, then the posts to `semS1`, `semS2`, `semS3` of sequence
count `0`, and then drains, whatever ticks the environment holds after it. For
any tick during which `abortTest` is set, the releases of the tick are posted
before the loop ends. -/
theorem C26_abort_sampled_after_tick (cfg : Config) (start_time : ℚ) (N : Nat)
    (init_ts : timespec) (e : TickEnv) (es : List TickEnv) (st : SeqState)
    (ha : e.abortTest = true) (hw : completes e.rcs = true) :
    (∃ st1 k, sequencerLoop cfg start_time N init_ts (e :: es) = .ok st1
        ∧ Sequencer cfg start_time N init_ts (e :: es) = .ok (shutdown st1)
        ∧ st1.seqCnt = 1
        ∧ st1.trace = List.replicate (k + 1)
              (Event.nanosleep cfg.ABS_DELAY
                (prepare cfg start_time e (seqInit cfg start_time init_ts)).delay_time)
            ++ [Event.post Sem.semS1, Event.post Sem.semS2, Event.post Sem.semS3])
      ∧ ∃ st1 k, seqLoop cfg start_time N (e :: es) st = .ok st1
        ∧ st1.trace = st.trace
            ++ List.replicate (k + 1)
                (Event.nanosleep cfg.ABS_DELAY (prepare cfg start_time e st).delay_time)
            ++ (releases st.seqCnt).map Event.post := by
  constructor
  · obtain ⟨st1, hrun, hbody⟩ :=
      seqLoop_abort cfg start_time N e es (seqInit cfg start_time init_ts) ha hw
    obtain ⟨st2, hbody2, hcnt, -, -, -, k, htr⟩ :=
      tickBody_completes cfg start_time e (seqInit cfg start_time init_ts) hw
    have e12 : st2 = st1 := by rw [hbody] at hbody2; exact (Except.ok.inj hbody2).symm
    subst e12
    refine ⟨st2, k, hrun, ?_, by rw [hcnt]; rfl, ?_⟩
    · have hrun2 : sequencerLoop cfg start_time N init_ts (e :: es) = .ok st2 := hrun
      simp [Sequencer, hrun2]
    · rw [htr]
      have hr : releases (seqInit cfg start_time init_ts).seqCnt
          = [Sem.semS1, Sem.semS2, Sem.semS3] := by
        show releases 0 = _
        decide
      rw [hr]
      simp [seqInit]
  · obtain ⟨st1, hrun, hbody⟩ := seqLoop_abort cfg start_time N e es st ha hw
    obtain ⟨st2, hbody2, -, -, -, -, k, htr⟩ := tickBody_completes cfg start_time e st hw
    have e12 : st2 = st1 := by rw [hbody] at hbody2; exact (Except.ok.inj hbody2).symm
    subst e12
    exact ⟨st2, k, hrun, htr⟩

/-- Witness of C26: an abort requested during the first tick of a run with the
tick limit 150. -/
theorem C26_abort_sampled_after_tick_witness :
    (∃ st1 k, sequencerLoop sampleCfg 0 150 ⟨0, 0⟩ (abortTick :: [quietTick]) = .ok st1
        ∧ Sequencer sampleCfg 0 150 ⟨0, 0⟩ (abortTick :: [quietTick]) = .ok (shutdown st1)
        ∧ st1.seqCnt = 1
        ∧ st1.trace = List.replicate (k + 1)
              (Event.nanosleep sampleCfg.ABS_DELAY
                (prepare sampleCfg 0 abortTick (seqInit sampleCfg 0 ⟨0, 0⟩)).delay_time)
            ++ [Event.post Sem.semS1, Event.post Sem.semS2, Event.post Sem.semS3])
      ∧ ∃ st1 k, seqLoop sampleCfg 0 150 (abortTick :: [quietTick])
            (seqInit sampleCfg 0 ⟨0, 0⟩) = .ok st1
        ∧ st1.trace = (seqInit sampleCfg 0 ⟨0, 0⟩).trace
            ++ List.replicate (k + 1)
                (Event.nanosleep sampleCfg.ABS_DELAY
                  (prepare sampleCfg 0 abortTick (seqInit sampleCfg 0 ⟨0, 0⟩)).delay_time)
            ++ (releases (seqInit sampleCfg 0 ⟨0, 0⟩).seqCnt).map Event.post :=
  C26_abort_sampled_after_tick sampleCfg 0 150 ⟨0, 0⟩ abortTick [quietTick]
    (seqInit sampleCfg 0 ⟨0, 0⟩) rfl (by decide)

/-- C24, as stated, fails: for the thread index `65536` the sum
`65536 * 65537 / 2 = 2147516416` is above `INT_MAX`; the addition
`sum = sum + i` overflows at `i = 65536`, so no `int` that `counterThread` logs
is that sum. -/
theorem C24_sum_overflows_at_65536 :
    IncDec.counterThread 65536 = none
      ∧ (65536 : Int) * (65536 + 1) / 2 = 2147516416
      ∧ ¬ IncDec.inRange (65536 * (65536 + 1) / 2) := by
  refine ⟨?_, by decide, by decide⟩
  unfold IncDec.counterThread
  rw [if_pos (by decide)]
  exact sumLoop_overflow (65536 + 1) (by decide) ((65536 : Int) - 1).toNat 1 0 le_rfl (by decide) rfl
    (by decide)

/-- C24, amended: for every thread index `n` with `0 ≤ n ≤ 65535`, so for the
indices `0 .. 127` of the program, the loop of `counterThread` ends without
`int` overflow and the value logged is `n * (n + 1) / 2` (`0` for `n = 0`). For
every `n ≥ 65536` the sum `n * (n + 1) / 2` is not an `int` and the addition
overflows. -/
theorem C24_counter_sum (n : Int) (h0 : 0 ≤ n) :
    (n ≤ 65535 → IncDec.counterThread n = some (n * (n + 1) / 2)
        ∧ IncDec.inRange (n * (n + 1) / 2))
      ∧ (65536 ≤ n → IncDec.counterThread n = none ∧ ¬ IncDec.inRange (n * (n + 1) / 2)) := by
  constructor
  · intro hn
    have hr : IncDec.inRange (n + 1) := by
      unfold IncDec.inRange IncDec.INT_MIN IncDec.INT_MAX
      constructor <;> omega
    constructor
    · unfold IncDec.counterThread
      rw [if_pos hr]
      exact sumLoop_total n hn (n + 1 - 1).toNat 1 0 le_rfl (by omega) rfl (by norm_num)
    · have hb1 : n * (n + 1) ≤ 65535 * 65536 := by nlinarith
      have hb0 : 0 ≤ n * (n + 1) := by nlinarith
      unfold IncDec.inRange IncDec.INT_MIN IncDec.INT_MAX
      generalize n * (n + 1) = p at hb0 hb1
      constructor <;> omega
  · intro hn
    constructor
    · unfold IncDec.counterThread
      split_ifs
      · exact sumLoop_overflow (n + 1) (by omega) ((65536 : Int) - 1).toNat 1 0 le_rfl (by decide) rfl
          (by decide)
      · rfl
    · have hb : 65536 * 65537 ≤ n * (n + 1) := by nlinarith
      unfold IncDec.inRange IncDec.INT_MIN IncDec.INT_MAX
      generalize n * (n + 1) = p at hb
      intro h
      omega

/-- Witness of C24: the last worker, with the index `127`, logs `8128`. -/
theorem C24_counter_sum_witness :
    ((127 : Int) ≤ 65535 → IncDec.counterThread 127 = some (127 * (127 + 1) / 2)
        ∧ IncDec.inRange (127 * (127 + 1) / 2))
      ∧ ((65536 : Int) ≤ 127 → IncDec.counterThread 127 = none
        ∧ ¬ IncDec.inRange (127 * (127 + 1) / 2)) :=
  C24_counter_sum 127 (by decide)

/-- C29: the create loop of `main` in assignment 2 runs over the indices
`1 .. 128` and the join loop over `0 .. 127`: the thread of index `128` is
created outside the array `threads` of `NUM_THREADS = 128` entries and is never
joined, and index `0` is joined although no thread was created there. -/
theorem C29_create_indices_off_by_one :
    IncDec2.createdSlots = List.range' 1 128
      ∧ IncDec2.joinedSlots = List.range 128
      ∧ 128 ∈ IncDec2.createdSlots ∧ ¬ 128 < IncDec2.NUM_THREADS
      ∧ 128 ∉ IncDec2.joinedSlots
      ∧ 0 ∈ IncDec2.joinedSlots ∧ 0 ∉ IncDec2.createdSlots := by
  set_option maxRecDepth 20000 in decide

/-- C30: with the priorities `rt_max_prio = 99` and `rt_min_prio = 1` noted in
the code, `starterThread` gives the worker `98` the priority `0` and the worker
`127` the priority `-29`, both below `rt_min_prio`; the priority is in the
range `1 .. 99` exactly for the workers `0 .. 97`. -/
theorem C30_worker_priority_below_minimum :
    IncDec4.Call.pthread_create 98 0 98 ∈ IncDec4.starterThread 99
      ∧ IncDec4.Call.pthread_create 127 (-29) 127 ∈ IncDec4.starterThread 99
      ∧ IncDec4.workerPriority 99 98 < 1
      ∧ ∀ i, i < IncDec4.NUM_THREADS →
          ((1 ≤ IncDec4.workerPriority 99 i ∧ IncDec4.workerPriority 99 i ≤ 99) ↔ i ≤ 97) := by
  refine ⟨by set_option maxRecDepth 20000 in decide,
    by set_option maxRecDepth 20000 in decide, by decide, ?_⟩
  intro i _
  unfold IncDec4.workerPriority
  omega

end SeqGen
